import Mathlib

/-!
Verification of the MadData26 repository's requirement-grouping scraper
(`L&S_Major_Requirements.py`) and of the LLM-output post-processing
(`ai/runModel.py`), through a shallow embedding of the Python source in Lean.

Conventions of the embedding:
* Python strings are Lean `String`s; `str.strip`, `str.lower`, `sep.join`
  and substring tests are modelled character-by-character (`pyStrip`,
  `pyLower`, `pyJoin`, `containsSub`).
* Python floats are modelled as rationals; float formatting/rounding
  details are approximated where only the produced text is affected.
* Mutable global state of the scraper (`output_rows`, `global_group_id`)
  is threaded explicitly as a `ScrapeState`.
* Fallible Python code (statements that can raise) returns `Except`.
-/

/-! ## Character-level models of Python string primitives -/

/-- Python whitespace for `str.strip` / `\s` (ASCII part). -/
def isPySpace (c : Char) : Bool :=
  c == ' ' || c == '\t' || c == '\n' || c == '\r' || c == '\x0b' || c == '\x0c'

/-- `str.strip()` on the character list: drop whitespace from both ends. -/
def pyStripChars (cs : List Char) : List Char :=
  ((cs.dropWhile isPySpace).reverse.dropWhile isPySpace).reverse

/-- Python `str.strip()`. -/
def pyStrip (s : String) : String := ⟨pyStripChars s.toList⟩

/-- Python `str.lower()` (ASCII model). -/
def pyLower (s : String) : String := ⟨s.toList.map Char.toLower⟩

/-- `sep.join(xs)` on character lists. -/
def joinChars (sep : List Char) : List (List Char) → List Char
  | [] => []
  | [x] => x
  | x :: y :: xs => x ++ sep ++ joinChars sep (y :: xs)

/-- Python `sep.join(xs)`. -/
def pyJoin (sep : String) (xs : List String) : String :=
  ⟨joinChars sep.toList (xs.map String.toList)⟩

/-- Whether `needle` occurs as a contiguous block inside `hay`. -/
def listContains (needle : List Char) : List Char → Bool
  | [] => needle.isEmpty
  | c :: rest => needle.isPrefixOf (c :: rest) || listContains needle rest

/-- Python's `needle in hay` substring test. -/
def containsSub (hay needle : String) : Bool :=
  listContains needle.toList hay.toList

/-! ## Scraper: configuration and course-identifier heuristic -/

/-- `FILTER_KEYWORDS` from `L&S_Major_Requirements.py`. -/
def FILTER_KEYWORDS : List String := ["credit", "course", "from", "complete", ":"]

/-- `any(k in c.lower() for k in FILTER_KEYWORDS)`: the keyword filter that
both `flush_group` and `row_to_course` apply to a text. -/
def keywordHit (s : String) : Bool :=
  FILTER_KEYWORDS.any (fun k => containsSub (pyLower s) k)

/-- A regex word character (`\w`, ASCII model): alphanumeric or underscore. -/
def isWordChar (c : Char) : Bool := c.isAlphanum || c == '_'

/-- Maximal runs of word characters of a character list (the `\b`-delimited
words of the text). `acc` is the reversed current run. -/
def wordRunsAux : List Char → List Char → List (List Char)
  | [], acc => if acc.isEmpty then [] else [acc.reverse]
  | c :: cs, acc =>
    if isWordChar c then wordRunsAux cs (c :: acc)
    else if acc.isEmpty then wordRunsAux cs []
    else acc.reverse :: wordRunsAux cs []

/-- Maximal word-character runs of a string. -/
def wordRuns (s : String) : List (List Char) := wordRunsAux s.toList []

/-- Model of `COURSE_ID_REGEX.search` for
`\b(?:\w*\d+\w*|[A-Z]{4,})\b`.  A match of the first alternative is a
word-boundary-delimited run of word characters containing a digit; since any
digit lies in some maximal word run, that alternative matches iff some word
run contains a digit.  The second alternative needs a word boundary on both
sides of the uppercase block, so it matches iff some maximal word run
consists entirely of capitals and has length at least four. -/
def courseIdRegexSearch (s : String) : Bool :=
  (wordRuns s).any (fun run =>
    run.any Char.isDigit || (decide (4 ≤ run.length) && run.all Char.isUpper))

/-! ## Scraper: state, `flush_group`, `row_to_course` -/

/-- One entry of `output_rows`: `[global_group_id, major, course]`. -/
structure OutRow where
  group_id : Nat
  major : String
  course : String
deriving DecidableEq, Repr

/-- The scraper's mutable globals `output_rows` and `global_group_id`. -/
structure ScrapeState where
  output_rows : List OutRow
  global_group_id : Nat
deriving DecidableEq, Repr

/-- The course filter inside `flush_group`:
`[c for c in courses if not any(k in c.lower() for k in FILTER_KEYWORDS)]`
keeps exactly the courses for which this predicate is true. -/
def course_allowed (c : String) : Bool := !keywordHit c

/-- `flush_group(courses, major)` from `L&S_Major_Requirements.py`
(lines 43-50), acting on the explicit global state. -/
def flush_group (courses : List String) (major : String) (st : ScrapeState) :
    ScrapeState :=
  let cleaned := courses.filter course_allowed
  if cleaned.isEmpty then st
  else
    { output_rows :=
        st.output_rows ++ cleaned.map (fun c => ⟨st.global_group_id, major, c⟩),
      global_group_id := st.global_group_id + 1 }

/-- A `<tr>` of a requirements table, with the pieces of the DOM that
`row_to_course` and `extract_courses_from_table` read: its `class`
attribute, the texts of its `<a>` descendants, the texts of its
`td.hourscol` cells, and its full text. -/
structure TableRow where
  classAttr : String
  linkTexts : List String
  hoursColTexts : List String
  fullText : String
deriving DecidableEq, Repr

/-- The text `row_to_course` classifies: the stripped, non-empty link texts
joined by `" & "`, falling back to the stripped full row text when that
join is empty (`" & ".join(...) or row.text.strip()`). -/
def chosenText (row : TableRow) : String :=
  let linkJoined :=
    pyJoin " & " ((row.linkTexts.map pyStrip).filter (fun t => !t.toList.isEmpty))
  if linkJoined.toList.isEmpty then pyStrip row.fullText else linkJoined

/-- `row_to_course(row)` from `L&S_Major_Requirements.py` (lines 53-63). -/
def row_to_course (row : TableRow) : String × Bool :=
  let credit_text := pyStrip (pyJoin " " (row.hoursColTexts.map pyStrip))
  let has_credit := !credit_text.toList.isEmpty
  let text := chosenText row
  if text.toList.isEmpty || keywordHit text then ("", has_credit)
  else if !courseIdRegexSearch text then ("", has_credit)
  else (text, has_credit)

/-! ## Scraper: `extract_courses_from_table` -/

/-- `_is_sep(tr)`: the row's class contains `areaheader` or `areasubheader`. -/
def is_sep (r : TableRow) : Bool :=
  containsSub r.classAttr "areaheader" || containsSub r.classAttr "areasubheader"

/-- Branch 1 of `extract_courses_from_table` (header/sub-header tables,
lines 77-86): the loop carries the pending `bucket`, flushing it at each
separator row, and a final `flush_group` runs after the loop. -/
def sepLoop (major : String) : List TableRow → ScrapeState → List String → ScrapeState
  | [], st, bucket => flush_group bucket major st
  | r :: rs, st, bucket =>
    if is_sep r then sepLoop major rs (flush_group bucket major st) []
    else
      let txt := (row_to_course r).1
      if txt.toList.isEmpty then sepLoop major rs st bucket
      else sepLoop major rs st (bucket ++ [txt])

/-- Branch 2 of `extract_courses_from_table` (table inside an accordion
category, lines 89-98). -/
def catLoop (major : String) : List TableRow → ScrapeState → List String → ScrapeState
  | [], st, bucket => flush_group bucket major st
  | r :: rs, st, bucket =>
    let txt := (row_to_course r).1
    if txt.toList.isEmpty then catLoop major rs (flush_group bucket major st) []
    else catLoop major rs st (bucket ++ [txt])

/-- Branch 3 of `extract_courses_from_table` (flat table, lines 101-111):
empty text flushes the bundle; a credit-bearing course flushes the bundle
and is emitted alone under a fresh group id; otherwise the course joins the
bundle; a final flush runs after the loop. -/
def flatLoop (major : String) : List TableRow → ScrapeState → List String → ScrapeState
  | [], st, bundle => flush_group bundle major st
  | r :: rs, st, bundle =>
    let tc := row_to_course r
    if tc.1.toList.isEmpty then flatLoop major rs (flush_group bundle major st) []
    else if tc.2 then
      let st1 := flush_group bundle major st
      flatLoop major rs
        { output_rows := st1.output_rows ++ [⟨st1.global_group_id, major, tc.1⟩],
          global_group_id := st1.global_group_id + 1 } []
    else flatLoop major rs st (bundle ++ [tc.1])

/-- `extract_courses_from_table(table, major, inside_category)` from
`L&S_Major_Requirements.py` (lines 66-111), over the list of `<tr>` rows. -/
def extract_courses_from_table (rows : List TableRow) (major : String)
    (inside_category : Bool) (st : ScrapeState) : ScrapeState :=
  if rows.isEmpty then st
  else if rows.any is_sep then sepLoop major rows st []
  else if inside_category then catLoop major rows st []
  else flatLoop major rows st []

/-! ## Spec-side definitions for the grouping claims -/

/-- The maximal runs of rows lying between consecutive separator rows
(including the run before the first separator and after the last one).
Stated from the spec's description of the segmentation. -/
def sepSegments : List TableRow → List (List TableRow)
  | [] => [[]]
  | r :: rs =>
    if is_sep r then [] :: sepSegments rs
    else
      match sepSegments rs with
      | [] => [[r]]
      | seg :: rest => (r :: seg) :: rest

/-- The recognized course texts of a run of rows: the non-empty
`row_to_course` texts, in row order. -/
def recognizedTexts (rows : List TableRow) : List String :=
  rows.filterMap (fun r =>
    let t := (row_to_course r).1
    if t.toList.isEmpty then none else some t)

/-- A row with the credit cells blanked out; used to state that the
has-credit flag is ignored in the separator branch. -/
def eraseCredit (r : TableRow) : TableRow := { r with hoursColTexts := [] }

/-- One step of the flat-table policy, stated from the spec's words: an
empty course text flushes the pending bundle and resets it; a recognized
course with credit first flushes the bundle, then is emitted alone as its
own single-course group under a fresh group id; a recognized course without
credit joins the bundle. -/
def flatSpecStep (major : String) (p : ScrapeState × List String) (r : TableRow) :
    ScrapeState × List String :=
  let tc := row_to_course r
  if tc.1.toList.isEmpty then (flush_group p.2 major p.1, [])
  else if tc.2 then
    let st1 := flush_group p.2 major p.1
    ({ output_rows := st1.output_rows ++ [⟨st1.global_group_id, major, tc.1⟩],
       global_group_id := st1.global_group_id + 1 }, [])
  else (p.1, p.2 ++ [tc.1])

/-- The flat-table policy of the spec: fold the step over the rows starting
from an empty bundle, then flush the bundle once more after the last row. -/
def flatSpec (rows : List TableRow) (major : String) (st : ScrapeState) :
    ScrapeState :=
  let p := rows.foldl (flatSpecStep major) (st, [])
  flush_group p.2 major p.1

/-! ## Scraper: per-program step of the scrape loop -/

/-- What the scrape loop observes about one program's page, in the order it
is consulted: whether clicking the requirements tab succeeds (the
`try`/`except` at lines 144-148), whether any of the header XPaths matches
(lines 178-185), and the course-list tables below the header together with
their `inside_category` flag (`True` for tables under an expanded toggle,
`False` for direct `sc_courselist` siblings). -/
structure ProgramPage where
  tabOpens : Bool
  headerFound : Bool
  tables : List (List TableRow × Bool)
deriving DecidableEq, Repr

/-- The scrape-loop state outside of per-row bookkeeping: the global
`ScrapeState` plus the per-major CSV files written so far (name and rows). -/
structure ScrapeEnv where
  st : ScrapeState
  files : List (String × List OutRow)
deriving DecidableEq, Repr

/-- The CSV filename for a program title:
`re.sub(r"[^\w\- ]", "", title).replace(" ", "_") + ".csv"`. -/
def csvName (title : String) : String :=
  ⟨(title.toList.filter (fun c => isWordChar c || c == '-' || c == ' ')).map
      (fun c => if c == ' ' then '_' else c)⟩ ++ ".csv"

/-- One iteration of the scrape loop for a program (lines 142-215): if the
requirements tab cannot be opened, or no header XPath matches, the program
is skipped with the environment untouched; otherwise every course-list
table below the header is extracted in order and, when the program
produced rows, they are written to a fresh per-major CSV file. -/
def processProgram (page : ProgramPage) (title : String) (env : ScrapeEnv) :
    ScrapeEnv :=
  if !page.tabOpens then env
  else if !page.headerFound then env
  else
    let start_idx := env.st.output_rows.length
    let st' := page.tables.foldl
      (fun s tb => extract_courses_from_table tb.1 title tb.2 s) env.st
    let major_rows := st'.output_rows.drop start_idx
    if major_rows.isEmpty then { st := st', files := env.files }
    else { st := st', files := env.files ++ [(csvName title, major_rows)] }

/-- The scrape loop over a school's program list. -/
def scrapePrograms (programs : List (ProgramPage × String)) (env : ScrapeEnv) :
    ScrapeEnv :=
  programs.foldl (fun e p => processProgram p.1 p.2 e) env

/-! ## Spec-side invariant for the group ids (claim C8) -/

/-- Relation between an earlier and a later entry of `output_rows`: either
the later entry has a strictly larger group id, or the two entries belong
to the same group and then carry the same major. -/
def rowRel (a b : OutRow) : Prop :=
  a.group_id < b.group_id ∨ (a.group_id = b.group_id ∧ a.major = b.major)

instance (a b : OutRow) : Decidable (rowRel a b) := by
  unfold rowRel; infer_instance

/-- The grouping invariant: `output_rows` is pairwise ordered by `rowRel`
(so group ids are nondecreasing, equal group ids are contiguous and share
one major, and distinct group ids appear in strictly increasing order of
first appearance), and `global_group_id` strictly dominates every group id
already emitted. -/
def ScrapeInv (st : ScrapeState) : Prop :=
  st.output_rows.Pairwise rowRel ∧
  ∀ r ∈ st.output_rows, r.group_id < st.global_group_id

/-! ## JSON values and Python value primitives (`ai/runModel.py`) -/

/-- Characters written via code points to keep the source free of literal
braces and quotes inside code. -/
def lbraceC : Char := Char.ofNat 123

def rbraceC : Char := Char.ofNat 125

def lbrackC : Char := Char.ofNat 91

def rbrackC : Char := Char.ofNat 93

def quoteC : Char := Char.ofNat 34

def bslashC : Char := Char.ofNat 92

def squoteC : Char := Char.ofNat 39

/-- A parsed JSON value.  Numbers are modelled as rationals (Python floats
and ints are collapsed; rounding behaviour of binary floats is not
modelled, and no claim below depends on it). -/
inductive JValue where
  | null : JValue
  | bool : Bool → JValue
  | num : ℚ → JValue
  | str : String → JValue
  | arr : List JValue → JValue
  | obj : List (String × JValue) → JValue
deriving Repr

/-- A Python dict parsed from JSON: association list with distinct keys. -/
abbrev JObj := List (String × JValue)

/-- `d[k]` lookup returning the first binding (keys are unique). -/
def jget (o : JObj) (k : String) : Option JValue :=
  o.lookup k

/-- Python `d.get(k, default)`. -/
def pyDictGet (o : JObj) (k : String) (default : JValue) : JValue :=
  (jget o k).getD default

/-- Insert a key into a dict: replace the value at the existing position if
the key is present (Python dicts keep first-insertion position, last
value), otherwise append. -/
def objUpsert (o : JObj) (k : String) (v : JValue) : JObj :=
  if o.any (fun kv => kv.1 == k) then
    o.map (fun kv => if kv.1 == k then (k, v) else kv)
  else o ++ [(k, v)]

/-- Python truthiness of a JSON value. -/
def pyTruthy : JValue → Bool
  | .null => false
  | .bool b => b
  | .num q => decide (q ≠ 0)
  | .str s => !s.toList.isEmpty
  | .arr xs => !xs.isEmpty
  | .obj fs => !fs.isEmpty

/-- Decimal representation used for numbers in `str`-formatted text.  A
rational with denominator 1 prints as its integer part (Python would print
`5.0` for the float; the exact decimal text of non-integral floats is
approximated by `num/den` — no claim depends on the digits). -/
def ratStr (q : ℚ) : String :=
  if q.den = 1 then toString q.num
  else toString q.num ++ "/" ++ toString q.den

mutual

/-- Python `repr` of a JSON value (the element form used inside `str` of a
container); string quoting and escape details are approximated. -/
def pyRepr : JValue → String
  | .null => "None"
  | .bool true => "True"
  | .bool false => "False"
  | .num q => ratStr q
  | .str s => ⟨[squoteC]⟩ ++ s ++ ⟨[squoteC]⟩
  | .arr xs => ⟨[lbrackC]⟩ ++ pyJoin ", " (pyReprList xs) ++ ⟨[rbrackC]⟩
  | .obj fs => ⟨[lbraceC]⟩ ++ pyJoin ", " (pyReprFields fs) ++ ⟨[rbraceC]⟩

/-- `repr` of each element of a list. -/
def pyReprList : List JValue → List String
  | [] => []
  | v :: vs => pyRepr v :: pyReprList vs

/-- `repr` of each `key: value` entry of a dict. -/
def pyReprFields : List (String × JValue) → List String
  | [] => []
  | kv :: fs =>
    (⟨[squoteC]⟩ ++ kv.1 ++ ⟨[squoteC]⟩ ++ ": " ++ pyRepr kv.2) :: pyReprFields fs

end

/-- Python `str(x)` of a JSON value. -/
def pyStr (v : JValue) : String :=
  match v with
  | .str s => s
  | v => pyRepr v

/-- `l.foldl` accumulation of decimal digits. -/
def digitsToNat (l : List Char) : Nat :=
  l.foldl (fun a c => a * 10 + (c.toNat - 48)) 0

/-- Multiply by a signed power of ten. -/
def mulPow10 (q : ℚ) (e : Int) : ℚ :=
  if 0 ≤ e then q * (10 : ℚ) ^ e.toNat else q / (10 : ℚ) ^ (-e).toNat

/-- Python `float(s)` on a string: strip whitespace, optional sign, decimal
digits with optional fraction and exponent.  `inf`/`nan` inputs are not
representable in the rational model and are mapped to failure; no claim
depends on them. -/
def parseFloatStr (s : String) : Option ℚ :=
  let cs := pyStripChars s.toList
  let (neg, cs1) :=
    match cs with
    | c :: rest =>
      if c == '-' then (true, rest)
      else if c == '+' then (false, rest)
      else (false, cs)
    | [] => (false, cs)
  let ip := cs1.takeWhile Char.isDigit
  let cs2 := cs1.dropWhile Char.isDigit
  let (fp, cs3) :=
    match cs2 with
    | c :: rest =>
      if c == '.' then (rest.takeWhile Char.isDigit, rest.dropWhile Char.isDigit)
      else ([], cs2)
    | [] => ([], cs2)
  if ip.isEmpty && fp.isEmpty then none
  else
    let mant : ℚ := mulPow10 ((digitsToNat (ip ++ fp) : ℚ)) (-(fp.length : Int))
    let mant := if neg then -mant else mant
    match cs3 with
    | [] => some mant
    | c :: rest =>
      if c == 'e' || c == 'E' then
        let (eneg, r1) :=
          match rest with
          | d :: r =>
            if d == '-' then (true, r)
            else if d == '+' then (false, r)
            else (false, rest)
          | [] => (false, rest)
        let eds := r1.takeWhile Char.isDigit
        let r2 := r1.dropWhile Char.isDigit
        if eds.isEmpty || !r2.isEmpty then none
        else
          let e : Int := if eneg then -(digitsToNat eds : Int) else (digitsToNat eds : Int)
          some (mulPow10 mant e)
      else none

/-- Python `float(x)` on a JSON value: numbers pass through, bools are 0/1,
strings are parsed; `None`, lists and dicts raise
(`TypeError`/`ValueError`, modelled as `none`). -/
def pyFloat : JValue → Option ℚ
  | .num q => some q
  | .bool b => some (if b then 1 else 0)
  | .str s => parseFloatStr s
  | _ => none

/-- The exception a modelled statement can raise. -/
inductive PyErr where
  | typeError : PyErr
deriving DecidableEq, Repr

/-- Python `for x in v`: lists yield their elements, dicts their keys,
strings their one-character substrings; other values raise `TypeError`. -/
def pyIterate : JValue → Except PyErr (List JValue)
  | .arr xs => .ok xs
  | .obj fs => .ok (fs.map (fun kv => .str kv.1))
  | .str s => .ok (s.toList.map (fun c => .str ⟨[c]⟩))
  | _ => .error .typeError

/-- Whether `for x in v` would succeed. -/
def iterOk (v : JValue) : Bool :=
  match pyIterate v with
  | .ok _ => true
  | .error _ => false

/-! ## `ai/runModel.py`: timeline context and fallback builders -/

/-- Text of a float under Python's `:g` format; integral values print
without a decimal point, other decimal detail is approximated. -/
def gFmt (q : ℚ) : String := ratStr q

/-- Text of a float under Python's `.0f` format (round to an integer;
round-half-to-even is approximated by `round`). -/
def f0Fmt (q : ℚ) : String := toString (round q : ℤ)

/-- An entry of `recommended_programs` after normalization. -/
structure RecProgram where
  name : String
  feasibility_score_0_100 : ℚ
  why : String
deriving DecidableEq, Repr

/-- Back to a JSON object, as returned inside the response dict. -/
def progToJValue (p : RecProgram) : JValue :=
  .obj [("name", .str p.name),
        ("feasibility_score_0_100", .num p.feasibility_score_0_100),
        ("why", .str p.why)]

/-- A list of strings as a JSON array. -/
def strListJValue (xs : List String) : JValue :=
  .arr (xs.map JValue.str)

/-- `_timeline_context(candidate, advising_payload)` (lines 176-204):
timeline text plus the numeric `sem` and `delay`. -/
def _timeline_context (candidate advising_payload : JObj) : String × ℚ × ℚ :=
  let sem_raw := (jget candidate "estimated_semesters_needed").getD
    ((jget advising_payload "estimated_semesters_needed").getD .null)
  let delay_raw := (jget candidate "estimated_graduation_delay").getD
    ((jget advising_payload "estimated_graduation_delay").getD (.num 0))
  let year := (jget candidate "current_year").getD
    ((jget advising_payload "current_year").getD .null)
  let expected_grad := (jget candidate "expected_graduation").getD
    ((jget advising_payload "expected_graduation").getD .null)
  let sem : ℚ := match sem_raw with
    | .null => 0
    | v => (pyFloat v).getD 0
  let delay : ℚ := match delay_raw with
    | .null => 0
    | v => (pyFloat v).getD 0
  let timeline_bits :=
    (if 0 < sem then ["estimated to finish in " ++ gFmt sem ++ " semester(s)"] else [])
    ++ (if 0 < delay then
          ["with an estimated graduation delay of " ++ gFmt delay ++ " semester(s)"]
        else ["with no estimated graduation delay"])
    ++ (if pyTruthy expected_grad then ["targeting " ++ pyStr expected_grad] else [])
    ++ (if pyTruthy year then ["from your current " ++ pyStr year ++ " standing"] else [])
  (pyJoin " and " timeline_bits, sem, delay)

/-- Clamp to `[0, 100]`: `max(0.0, min(100.0, x))`. -/
def clamp100 (q : ℚ) : ℚ := max 0 (min 100 q)

/-- An element of the fallback list before the `_sort_*` keys are
stripped. -/
structure FallbackItem where
  name : String
  feasibility_score_0_100 : ℚ
  why : String
  sortFeasibility : ℚ
  sortCompletion : ℚ
  sortRemaining : Nat
deriving DecidableEq, Repr

/-- Strict descending comparison on the sort key
`(_sort_feasibility, _sort_completion, -_sort_remaining)`. -/
def fbKeyGt (a b : FallbackItem) : Bool :=
  if a.sortFeasibility ≠ b.sortFeasibility then decide (b.sortFeasibility < a.sortFeasibility)
  else if a.sortCompletion ≠ b.sortCompletion then decide (b.sortCompletion < a.sortCompletion)
  else decide (a.sortRemaining < b.sortRemaining)

/-- Stable insertion placing `x` before the first element it strictly
beats; equal-key elements keep their original order, as Python's stable
`list.sort(reverse=True)` does. -/
def stableInsertBy (gt : α → α → Bool) (x : α) : List α → List α
  | [] => [x]
  | y :: ys => if gt x y then x :: y :: ys else y :: stableInsertBy gt x ys

/-- Stable sort by repeated insertion (descending when `gt` is a strict
descending comparison). -/
def stableSortBy (gt : α → α → Bool) (l : List α) : List α :=
  l.foldl (fun acc x => stableInsertBy gt x acc) []

/-- Order-preserving deduplication (Python `seen`-set loop). -/
def dedupKeepFirst [BEq α] : List α → List α :=
  go []
where
  /-- `seen` carries the elements already emitted. -/
  go (seen : List α) : List α → List α
    | [] => []
    | x :: xs => if seen.contains x then go seen xs else x :: go (x :: seen) xs

/-- `max(l)` with Python's `if l else 0` convention. -/
def listMaxD (l : List ℚ) : ℚ :=
  match l with
  | [] => 0
  | x :: xs => xs.foldl max x

/-- The `strip`ped string forms of a `remaining_courses` list value, blanks
dropped; non-list values give `[]`
(`[str(c).strip() for c in remaining if str(c).strip()] if isinstance(remaining, list) else []`). -/
def remainingList : JValue → List String
  | .arr rs => (rs.map (fun course => pyStrip (pyStr course))).filter (fun s => !s.toList.isEmpty)
  | _ => []

/-- The body of the `for candidate in ...` loop of
`_fallback_programs_from_payload` (lines 211-258): non-dicts and unnamed
candidates are skipped, otherwise one `FallbackItem` is produced. -/
def fallbackItemOf (advising_payload : JObj) : JValue → Option FallbackItem
  | .obj candidate =>
    let name := pyStrip (pyStr (pyDictGet candidate "name" (.str "")))
    if name.toList.isEmpty then none
    else
      let feasibility_raw := pyDictGet candidate "feasibility_score" .null
      let completion_raw := pyDictGet candidate "completion_pct" (.num 0)
      let completion_pct := clamp100 ((pyFloat completion_raw).getD 0)
      let score :=
        match feasibility_raw with
        | .null => completion_pct
        | v => (pyFloat v).getD completion_pct
      let score := clamp100 score
      let remaining_list := remainingList (pyDictGet candidate "remaining_courses" (.arr []))
      let remaining_count := remaining_list.length
      let timeline_text := (_timeline_context candidate advising_payload).1
      let why := f0Fmt completion_pct ++ "% complete"
      let why := why ++
        (if !remaining_list.isEmpty then
          " with " ++ toString remaining_count ++ " course(s) remaining" else "")
      let why := why ++ (if !timeline_text.toList.isEmpty then " and " ++ timeline_text else "")
      let why := why ++
        (if !remaining_list.isEmpty then ": " ++ pyJoin ", " (remaining_list.take 4) else "")
      some ⟨name, score, why, score, completion_pct, remaining_count⟩
  | _ => none

/-- `_fallback_programs_from_payload(advising_payload)` (lines 207-274):
iterate `candidate_programs` (raising on non-iterables), build the scored
items, sort them descending by `(feasibility, completion, -remaining)`,
and keep the top three without the `_sort_*` keys. -/
def _fallback_programs_from_payload (advising_payload : JObj) :
    Except PyErr (List RecProgram) := do
  let cands ← pyIterate (pyDictGet advising_payload "candidate_programs" (.arr []))
  let fallback := cands.filterMap (fallbackItemOf advising_payload)
  let sorted := stableSortBy fbKeyGt fallback
  pure ((sorted.take 3).map (fun i => ⟨i.name, i.feasibility_score_0_100, i.why⟩))

/-- The dict comprehension
`{str(c.get("name", "")).strip(): c for c in advising_payload.get("candidate_programs", []) if isinstance(c, dict)}`. -/
def candidateByName (cands : List JValue) : List (String × JObj) :=
  cands.foldl
    (fun acc c =>
      match c with
      | .obj o =>
        let k := pyStrip (pyStr (pyDictGet o "name" (.str "")))
        if acc.any (fun kv => kv.1 == k) then
          acc.map (fun kv => if kv.1 == k then (k, o) else kv)
        else acc ++ [(k, o)]
      | _ => acc)
    []

/-- `_fallback_next_steps(advising_payload, programs)` (lines 277-326). -/
def _fallback_next_steps (advising_payload : JObj) (programs : List RecProgram) :
    Except PyErr (List String) := do
  let cands ← pyIterate (pyDictGet advising_payload "candidate_programs" (.arr []))
  let candidate_by_name := candidateByName cands
  let steps1 :=
    match programs with
    | [] => []
    | top_program :: _ =>
      let top_candidate := ((candidate_by_name.lookup top_program.name).getD [])
      let tc := _timeline_context top_candidate advising_payload
      let step := "Prioritize " ++ top_program.name ++
        " this semester and map remaining requirements into your graduation plan"
      let step := step ++ (if !tc.1.toList.isEmpty then " (" ++ tc.1 ++ ")" else "")
      [step ++ "."]
      ++ (if 0 < tc.2.1 then
            ["Plan a term-by-term schedule for the next " ++ gFmt tc.2.1 ++
              " semester(s) to stay on track."]
          else [])
      ++ (if 0 < tc.2.2 then
            ["Meet with an L&S advisor this month to reduce projected graduation delay risks."]
          else [])
  let all_remaining := cands.foldl
    (fun acc c =>
      match c with
      | .obj o => acc ++ remainingList (pyDictGet o "remaining_courses" (.arr []))
      | _ => acc)
    []
  let unique_remaining :=
    stableSortBy (fun a b => decide ((a : String) < b)) (dedupKeepFirst all_remaining)
  let steps2 :=
    if unique_remaining.isEmpty then []
    else ["Meet with an L&S advisor to confirm sequencing for: " ++
      pyJoin ", " (unique_remaining.take 5) ++ "."]
  let steps := steps1 ++ steps2 ++
    ["Use your next registration window to enroll in at least one remaining certificate/major-support course.",
     "Update your resume and LinkedIn with project work aligned to your top recommended program."]
  pure ((dedupKeepFirst steps).take 6)

/-- `_fallback_career_paths(advising_payload, programs)` (lines 329-350). -/
def _fallback_career_paths (advising_payload : JObj) (programs : List RecProgram) :
    Except PyErr (List String) := do
  let rawInterests ← pyIterate (pyDictGet advising_payload "interests" (.arr []))
  let interests :=
    ((rawInterests.map (fun i => pyStrip (pyStr i))).filter
      (fun s => !s.toList.isEmpty)).map pyLower
  let mapped :=
    (if interests.any (fun i => containsSub i "data") ||
        programs.any (fun p => containsSub (pyLower p.name) "data") then
      ["Data Scientist", "Data Analyst", "Business Intelligence Developer"]
    else [])
    ++ (if interests.any (fun i => containsSub i "machine" || containsSub i "ai") then
          ["Machine Learning Engineer", "Applied AI Engineer"]
        else [])
    ++ (if interests.any (fun i => containsSub i "software") ||
          programs.any (fun p => containsSub (pyLower p.name) "computer") then
          ["Software Engineer", "Backend Engineer"]
        else [])
  let mapped :=
    if mapped.isEmpty then ["Software Engineer", "Data Analyst", "Technical Consultant"]
    else mapped
  pure ((dedupKeepFirst mapped).take 5)

/-- `_fallback_pros(advising_payload, programs)` (lines 353-372). -/
def _fallback_pros (advising_payload : JObj) (programs : List RecProgram) :
    Except PyErr (List String) := do
  let cands ← pyIterate (pyDictGet advising_payload "candidate_programs" (.arr []))
  let top :=
    match programs with
    | [] => "the recommended plan"
    | p :: _ => p.name
  let candidate_by_name := candidateByName cands
  let top_candidate := (candidate_by_name.lookup top).getD []
  let tc := _timeline_context top_candidate advising_payload
  let pros :=
    [top ++ " is aligned with your completed coursework and current trajectory.",
     "Completing a targeted program can strengthen internship and entry-level job competitiveness."]
    ++ (if !tc.1.toList.isEmpty then
          ["Backend timeline estimates indicate this path is " ++ tc.1 ++ "."]
        else [])
    ++ (if tc.2.2 ≤ 0 then
          ["Current feasibility inputs suggest graduation timing can likely be preserved."]
        else [])
  pure (pros.take 4)

/-- The per-candidate statistics collected by the loop of `_fallback_cons`
(lines 377-388): lengths of `remaining_courses` lists, all delays, and the
positive semester estimates, in candidate order. -/
def consStats (advising_payload : JObj) (cands : List JValue) :
    List Nat × List ℚ × List ℚ :=
  cands.foldl
    (fun acc c =>
      match c with
      | .obj o =>
        let remaining := pyDictGet o "remaining_courses" .null
        let counts :=
          match remaining with
          | .arr rs => acc.1 ++ [rs.length]
          | _ => acc.1
        let tc := _timeline_context o advising_payload
        (counts,
         (if 0 < tc.2.1 then acc.2.1 ++ [tc.2.1] else acc.2.1),
         acc.2.2 ++ [tc.2.2])
      | _ => acc)
    ([], [], [])

/-- `_fallback_cons(advising_payload, programs)` (lines 375-406); the
`programs` argument is unused by the source body. -/
def _fallback_cons (advising_payload : JObj) (_programs : List RecProgram) :
    Except PyErr (List String) := do
  let cands ← pyIterate (pyDictGet advising_payload "candidate_programs" (.arr []))
  let stats := consStats advising_payload cands
  let remaining_counts := stats.1
  let semesters := stats.2.1
  let delays := stats.2.2
  let avg_remaining : ℚ :=
    if remaining_counts.isEmpty then 0
    else ((remaining_counts.map (fun n => (n : ℚ))).sum) / (remaining_counts.length : ℚ)
  let max_delay := listMaxD delays
  let max_sem := listMaxD semesters
  let cons :=
    ["Additional required courses may increase workload in upcoming terms.",
     "Balancing depth in one area may reduce flexibility for unrelated electives."]
    ++ (if 2 ≤ max_sem then
          ["Some options may require multi-semester follow-through (up to " ++
            gFmt max_sem ++ " semester(s))."]
        else [])
    ++ (if 0 < max_delay then
          ["Backend estimates indicate potential graduation delay risk (up to " ++
            gFmt max_delay ++ " semester(s))."]
        else if 3 ≤ avg_remaining then
          ["Several remaining requirements may require careful sequencing to graduate on time."]
        else
          ["Even with high feasibility, completing requirements still needs consistent term-by-term planning."])
  pure (cons.take 4)

/-! ## `ai/runModel.py`: `_enforce_schema` -/

/-- `ensure_list_of_strings(value)` (lines 412-415): non-lists give `[]`;
lists give the stripped `str` forms of their items, blanks dropped. -/
def ensure_list_of_strings : JValue → List String
  | .arr xs =>
    (xs.map (fun item => pyStrip (pyStr item))).filter (fun s => !s.toList.isEmpty)
  | _ => []

/-- The body of the `for item in data.get("recommended_programs", [])` loop
of `_enforce_schema` (lines 418-436): non-dict items and items with a blank
name are skipped; the feasibility score is `float`-coerced (0 on failure)
and clamped into `[0, 100]`. -/
def mkProgram (item : JValue) : Option RecProgram :=
  match item with
  | .obj o =>
    let name := pyStrip (pyStr (pyDictGet o "name" (.str "")))
    let why := pyStrip (pyStr (pyDictGet o "why" (.str "")))
    let score_raw := pyDictGet o "feasibility_score_0_100" (.num 0)
    let score := clamp100 ((pyFloat score_raw).getD 0)
    if name.toList.isEmpty then none else some ⟨name, score, why⟩
  | _ => none

/-- The programs retained from the model output. -/
def dataPrograms (items : List JValue) : List RecProgram :=
  items.filterMap mkProgram

/-- The recurring Python idiom `x = norm(...)`; `if not x: x = fallback(...)`:
keep the computed list when non-empty, otherwise use the (fallible)
fallback. -/
def orFallback {α : Type} (x : List α) (fb : Except PyErr (List α)) :
    Except PyErr (List α) :=
  if x.isEmpty then fb else pure x

/-- `_enforce_schema(data, advising_payload)` (lines 409-463): normalize
the model output into the five-key response dict, replacing each empty
field by its deterministic fallback. -/
def _enforce_schema (data advising_payload : JObj) : Except PyErr JObj := do
  let items ← pyIterate (pyDictGet data "recommended_programs" (.arr []))
  let programs ← orFallback (dataPrograms items)
    (_fallback_programs_from_payload advising_payload)
  let career_paths ← orFallback
    (ensure_list_of_strings (pyDictGet data "career_paths" .null))
    (_fallback_career_paths advising_payload programs)
  let pros ← orFallback (ensure_list_of_strings (pyDictGet data "pros" .null))
    (_fallback_pros advising_payload programs)
  let cons ← orFallback (ensure_list_of_strings (pyDictGet data "cons" .null))
    (_fallback_cons advising_payload programs)
  let next_steps ← orFallback
    (ensure_list_of_strings (pyDictGet data "next_steps" .null))
    (_fallback_next_steps advising_payload programs)
  pure [("recommended_programs", .arr (programs.map progToJValue)),
        ("career_paths", strListJValue career_paths),
        ("pros", strListJValue pros),
        ("cons", strListJValue cons),
        ("next_steps", strListJValue next_steps)]

/-! ## `ai/runModel.py`: `json.loads` model -/

/-- JSON whitespace. -/
def isJsonWs (c : Char) : Bool :=
  c == ' ' || c == '\t' || c == '\n' || c == '\r'

/-- Skip JSON whitespace. -/
def skipWs (cs : List Char) : List Char := cs.dropWhile isJsonWs

/-- Hex digit value. -/
def hexVal (c : Char) : Option Nat :=
  if c.isDigit then some (c.toNat - 48)
  else if 'a' ≤ c && c ≤ 'f' then some (c.toNat - 87)
  else if 'A' ≤ c && c ≤ 'F' then some (c.toNat - 55)
  else none

/-- Parse the body of a JSON string after the opening quote; `acc` is the
reversed content.  Strict mode: unescaped control characters and unknown
escapes are rejected.  `fuel` bounds the recursion and is instantiated with
the input length. -/
def parseStringBody : Nat → List Char → List Char → Option (String × List Char)
  | 0, _, _ => none
  | _ + 1, [], _ => none
  | f + 1, c :: rest, acc =>
    if c == quoteC then some (⟨acc.reverse⟩, rest)
    else if c == bslashC then
      match rest with
      | [] => none
      | e :: rest2 =>
        if e == quoteC then parseStringBody f rest2 (quoteC :: acc)
        else if e == bslashC then parseStringBody f rest2 (bslashC :: acc)
        else if e == '/' then parseStringBody f rest2 ('/' :: acc)
        else if e == 'b' then parseStringBody f rest2 ('\x08' :: acc)
        else if e == 'f' then parseStringBody f rest2 ('\x0c' :: acc)
        else if e == 'n' then parseStringBody f rest2 ('\n' :: acc)
        else if e == 'r' then parseStringBody f rest2 ('\r' :: acc)
        else if e == 't' then parseStringBody f rest2 ('\t' :: acc)
        else if e == 'u' then
          match rest2 with
          | h1 :: h2 :: h3 :: h4 :: rest6 =>
            match hexVal h1, hexVal h2, hexVal h3, hexVal h4 with
            | some a, some b, some c3, some d =>
              parseStringBody f rest6 (Char.ofNat (((a * 16 + b) * 16 + c3) * 16 + d) :: acc)
            | _, _, _, _ => none
          | _ => none
        else none
    else if c.toNat < 32 then none
    else parseStringBody f rest (c :: acc)

/-- Parse a JSON number (grammar `-? int frac? exp?` with no leading zeros);
a malformed exponent part is left unconsumed, as the `json` module's number
regex does. -/
def parseNumber (cs : List Char) : Option (JValue × List Char) :=
  let (neg, cs1) :=
    match cs with
    | c :: rest => if c == '-' then (true, rest) else (false, cs)
    | [] => (false, cs)
  let ip := cs1.takeWhile Char.isDigit
  let cs2 := cs1.dropWhile Char.isDigit
  if ip.isEmpty then none
  else if 1 < ip.length && ip.headD '0' == '0' then none
  else
    let (fp, cs3, fracOk) :=
      match cs2 with
      | c :: rest =>
        if c == '.' then
          let ds := rest.takeWhile Char.isDigit
          if ds.isEmpty then ([], cs2, false)
          else (ds, rest.dropWhile Char.isDigit, true)
        else ([], cs2, true)
      | [] => ([], cs2, true)
    if !fracOk then none
    else
      let mant : ℚ := mulPow10 ((digitsToNat (ip ++ fp) : ℚ)) (-(fp.length : Int))
      let mant := if neg then -mant else mant
      let (e, cs4) :=
        match cs3 with
        | c :: rest =>
          if c == 'e' || c == 'E' then
            let (eneg, r1) :=
              match rest with
              | d :: r =>
                if d == '-' then (true, r)
                else if d == '+' then (false, r)
                else (false, rest)
              | [] => (false, rest)
            let eds := r1.takeWhile Char.isDigit
            if eds.isEmpty then ((0 : Int), cs3)
            else
              ((if eneg then -(digitsToNat eds : Int) else (digitsToNat eds : Int)),
               r1.dropWhile Char.isDigit)
          else ((0 : Int), cs3)
        | [] => ((0 : Int), cs3)
      some (.num (mulPow10 mant e), cs4)

mutual

/-- Parse one JSON value at the head of the input (no leading whitespace).
`fuel` strictly decreases across nested calls and is instantiated with a
bound derived from the input length. -/
def parseValue : Nat → List Char → Option (JValue × List Char)
  | 0, _ => none
  | f + 1, cs =>
    match cs with
    | [] => none
    | c :: rest =>
      if c == lbraceC then
        let r := skipWs rest
        match r with
        | d :: rest2 => if d == rbraceC then some (.obj [], rest2) else parseMembers f r []
        | [] => none
      else if c == lbrackC then
        let r := skipWs rest
        match r with
        | d :: rest2 => if d == rbrackC then some (.arr [], rest2) else parseElems f r []
        | [] => none
      else if c == quoteC then
        match parseStringBody (rest.length + 1) rest [] with
        | some (s, rest2) => some (.str s, rest2)
        | none => none
      else if c == 't' then
        if rest.take 3 = ['r', 'u', 'e'] then some (.bool true, rest.drop 3) else none
      else if c == 'f' then
        if rest.take 4 = ['a', 'l', 's', 'e'] then some (.bool false, rest.drop 4) else none
      else if c == 'n' then
        if rest.take 3 = ['u', 'l', 'l'] then some (.null, rest.drop 3) else none
      else parseNumber cs

/-- Parse the members of an object after at least one is known to follow. -/
def parseMembers : Nat → List Char → JObj → Option (JValue × List Char)
  | 0, _, _ => none
  | f + 1, cs, acc =>
    match cs with
    | [] => none
    | c :: rest =>
      if c == quoteC then
        match parseStringBody (rest.length + 1) rest [] with
        | some (key, rest2) =>
          match skipWs rest2 with
          | d :: rest3 =>
            if d == ':' then
              match parseValue f (skipWs rest3) with
              | some (v, rest4) =>
                let acc := objUpsert acc key v
                match skipWs rest4 with
                | e :: rest5 =>
                  if e == ',' then parseMembers f (skipWs rest5) acc
                  else if e == rbraceC then some (.obj acc, rest5)
                  else none
                | [] => none
              | none => none
            else none
          | [] => none
        | none => none
      else none

/-- Parse the elements of an array after at least one is known to follow. -/
def parseElems : Nat → List Char → List JValue → Option (JValue × List Char)
  | 0, _, _ => none
  | f + 1, cs, acc =>
    match parseValue f cs with
    | some (v, rest) =>
      match skipWs rest with
      | e :: rest2 =>
        if e == ',' then parseElems f (skipWs rest2) (acc ++ [v])
        else if e == rbrackC then some (.arr (acc ++ [v]), rest2)
        else none
      | [] => none
    | none => none

end

/-- Model of `json.loads(s)`: `none` is a `JSONDecodeError`.  The
`Infinity`/`NaN` extensions of the Python module are not representable in
the rational number model and are rejected; no claim depends on them. -/
def json_loads (s : String) : Option JValue :=
  let cs := skipWs s.toList
  match parseValue (cs.length + 1) cs with
  | some (v, rest) => if (skipWs rest).isEmpty then some v else none
  | none => none

/-! ## `ai/runModel.py`: `_clean_json_like_text` and `extract_json` -/

/-- First index at which `pat` starts inside `cs`. -/
def findSubIdx (pat : List Char) : List Char → Option Nat
  | [] => if pat.isEmpty then some 0 else none
  | c :: rest =>
    if pat.isPrefixOf (c :: rest) then some 0
    else (findSubIdx pat rest).map (· + 1)

/-- The triple-backtick fence. -/
def fenceChars : List Char := [Char.ofNat 96, Char.ofNat 96, Char.ofNat 96]

/-- Case-insensitive `json` tag right after the opening fence. -/
def jsonTagChars : List Char := ['j', 's', 'o', 'n']

/-- `re.search(r"<fence>(?:json)?\s*(.*?)\s*<fence>", ..., IGNORECASE|DOTALL)`
reduced to its effect: the region between the first fence (after an
optional case-insensitive `json` tag) and the next fence.  The lazy group
and the surrounding `\s*` only shave whitespace that the caller's `strip`
removes anyway, so the stripped group equals the stripped region. -/
def fencedRegion (cs : List Char) : Option (List Char) :=
  match findSubIdx fenceChars cs with
  | none => none
  | some i =>
    let afterOpen := cs.drop (i + 3)
    let body :=
      if jsonTagChars.isPrefixOf (afterOpen.map Char.toLower) then afterOpen.drop 4
      else afterOpen
    match findSubIdx fenceChars body with
    | none => none
    | some g => some (body.take g)

/-- One `re.sub(r",\s*([}\]])", r"\1", ...)` pass over the characters:
each comma followed by whitespace and a closing brace/bracket is replaced
by the closer, scanning left to right past each replacement.  `fuel` bounds
the recursion and is instantiated with the input length. -/
def rtcGo : Nat → List Char → List Char
  | _, [] => []
  | 0, cs => cs
  | f + 1, c :: rest =>
    if c == ',' then
      match rest.dropWhile isPySpace with
      | d :: rest2 =>
        if d == rbraceC || d == rbrackC then d :: rtcGo f rest2
        else c :: rtcGo f rest
      | [] => c :: rtcGo f rest
    else c :: rtcGo f rest

/-- Remove trailing commas before a closing brace/bracket. -/
def removeTrailingCommas (cs : List Char) : List Char :=
  rtcGo cs.length cs

/-- `_clean_json_like_text(text)` (lines 84-94): strip, unwrap a fenced
block when present, drop trailing commas. -/
def _clean_json_like_text (text : String) : String :=
  let cleaned := pyStripChars text.toList
  let cleaned :=
    match fencedRegion cleaned with
    | some inner => pyStripChars inner
    | none => cleaned
  ⟨removeTrailingCommas cleaned⟩

/-- Parse one scanned block the way the scanner does: apply the trailing
comma removal again, `json.loads` it, and keep it only if it is a dict. -/
def parseBlockObj (blk : List Char) : Option JObj :=
  match json_loads ⟨removeTrailingCommas blk⟩ with
  | some (.obj o) => some o
  | _ => none

/-- `required.issubset(candidate.keys())`: the candidate dict contains
both `recommended_programs` and `next_steps`. -/
def hasRequiredKeys (o : JObj) : Bool :=
  (jget o "recommended_programs").isSome && (jget o "next_steps").isSome

/-- The scanner state of `extract_json`'s balanced-block loop
(lines 128-131). -/
structure ScanState where
  start_idx : Option Nat
  depth : Nat
  in_string : Bool
  escape : Bool
  candidates : List JObj

/-- One iteration of the `for idx, ch in enumerate(cleaned)` loop of
`extract_json` (lines 133-163). -/
def scanStep (cleaned : List Char) (st : ScanState) (p : Nat × Char) : ScanState :=
  let idx := p.1
  let ch := p.2
  if st.in_string then
    if st.escape then { st with escape := false }
    else if ch == bslashC then { st with escape := true }
    else if ch == quoteC then { st with in_string := false }
    else st
  else if ch == quoteC then { st with in_string := true }
  else if ch == lbraceC then
    { st with
      start_idx := if st.depth == 0 then some idx else st.start_idx,
      depth := st.depth + 1 }
  else if ch == rbraceC then
    if 0 < st.depth then
      let depth' := st.depth - 1
      if depth' == 0 then
        match st.start_idx with
        | some s =>
          let candidate := (cleaned.drop s).take (idx + 1 - s)
          match parseBlockObj candidate with
          | some o => { st with depth := depth', candidates := st.candidates ++ [o] }
          | none => { st with depth := depth', start_idx := none }
        | none => { st with depth := depth' }
      else { st with depth := depth' }
    else st
  else st

/-- `extract_json(text)` (lines 113-173): clean the text, collect the
direct parse and every balanced top-level block that parses as a dict, and
pick the first candidate with both required keys, else the first
candidate. -/
def extract_json (text : String) : Option JObj :=
  let cleaned := (_clean_json_like_text text).toList
  let direct : List JObj :=
    match json_loads ⟨cleaned⟩ with
    | some (.obj o) => [o]
    | _ => []
  let scanned :=
    (cleaned.enum.foldl (scanStep cleaned) ⟨none, 0, false, false, []⟩).candidates
  let candidates := direct ++ scanned
  match candidates with
  | [] => none
  | c :: _ =>
    match candidates.find? hasRequiredKeys with
    | some c' => some c'
    | none => some c

/-! ## Spec-side definitions for `extract_json` (claim C9) -/

/-- The state of the pure balanced-block scan (no parsing): current block
start, brace depth, string state, and the blocks found so far. -/
structure BlockState where
  start : Option Nat
  depth : Nat
  inStr : Bool
  esc : Bool
  blocks : List (List Char)

/-- One step of the pure balanced-top-level-block scan: brace matching
that ignores braces inside JSON strings, recording each block that closes
at depth zero. -/
def blockStep (cleaned : List Char) (st : BlockState) (p : Nat × Char) : BlockState :=
  let idx := p.1
  let ch := p.2
  if st.inStr then
    if st.esc then { st with esc := false }
    else if ch == bslashC then { st with esc := true }
    else if ch == quoteC then { st with inStr := false }
    else st
  else if ch == quoteC then { st with inStr := true }
  else if ch == lbraceC then
    { st with
      start := if st.depth == 0 then some idx else st.start,
      depth := st.depth + 1 }
  else if ch == rbraceC then
    if 0 < st.depth then
      let depth' := st.depth - 1
      if depth' == 0 then
        match st.start with
        | some s =>
          { st with depth := depth',
                    blocks := st.blocks ++ [(cleaned.drop s).take (idx + 1 - s)] }
        | none => { st with depth := depth' }
      else { st with depth := depth' }
    else st
  else st

/-- The balanced top-level brace blocks of a character list. -/
def topLevelBlocks (cleaned : List Char) : List (List Char) :=
  (cleaned.enum.foldl (blockStep cleaned) ⟨none, 0, false, false, []⟩).blocks

/-- The candidate dicts of a text, per the spec: the whole cleaned text
when it parses as a JSON object, followed by every balanced top-level
block that parses as a JSON object, in position order. -/
def specCandidates (text : String) : List JObj :=
  let cleaned := (_clean_json_like_text text).toList
  (match json_loads ⟨cleaned⟩ with
   | some (.obj o) => [o]
   | _ => []) ++
  (topLevelBlocks cleaned).filterMap parseBlockObj

/-! ## Repository-level model: entry behavior of each file (claim C10) -/

/-- What running a file as a script does after its straight-line work:
either it terminates by itself (a batch job), or it enters a serve loop
that runs until interrupted. -/
inductive EntryBehavior where
  | batchJob : EntryBehavior
  | httpServer : EntryBehavior
deriving DecidableEq, Repr

/-- The repository's Python files and the behavior of their module-level
code, read off the sources: every file is a straight-line script that
terminates, except `src/ai/app.py`, whose `__main__` block calls
`app.run(port=5000)` (lines 40-41) and therefore serves HTTP until
interrupted. -/
def repoFiles : List (String × EntryBehavior) :=
  [("src/L&S_Major_Requirements.py", .batchJob),
   ("src/ai/app.py", .httpServer),
   ("src/ai/runModel.py", .batchJob),
   ("src/ai/testModel.py", .batchJob),
   ("src/ai/test_run.py", .batchJob),
   ("src/scripts/course2convex.py", .batchJob),
   ("src/scripts/courses.py", .batchJob),
   ("src/scripts/coursetable.py", .batchJob),
   ("src/scripts/majors.py", .batchJob),
   ("src/scripts/majors2convex.py", .batchJob)]

/-- Claim C10 as stated: every file of the repository is a batch job and
none starts a long-running service. -/
def allFilesAreBatchJobs : Prop :=
  ∀ f ∈ repoFiles, f.2 = EntryBehavior.batchJob


/-! ## Helper lemmas: strings and stripping -/

theorem mk_eq_empty_iff (l : List Char) : (⟨l⟩ : String) = "" ↔ l = [] := by
  constructor
  · intro h
    have : (⟨l⟩ : String).data = ("" : String).data := by rw [h]
    simpa using this
  · intro h; rw [h]

theorem str_toList_isEmpty_iff (s : String) : s.toList.isEmpty = true ↔ s = "" := by
  cases s with
  | mk data =>
    cases data with
    | nil => simp [String.toList, List.isEmpty, mk_eq_empty_iff]
    | cons c cs => simp [String.toList, List.isEmpty, mk_eq_empty_iff]

theorem dropWhile_eq_nil_of_all (p : α → Bool) :
    ∀ l : List α, (∀ c ∈ l.dropWhile p, p c = true) → l.dropWhile p = []
  | [], _ => rfl
  | c :: l, h => by
    by_cases hc : p c = true
    · rw [List.dropWhile_cons_of_pos hc] at h ⊢
      exact dropWhile_eq_nil_of_all p l h
    · rw [List.dropWhile_cons_of_neg hc] at h
      exact absurd (h c (List.mem_cons_self c l)) hc

theorem pyStripChars_eq_nil_iff (cs : List Char) :
    pyStripChars cs = [] ↔ ∀ c ∈ cs, isPySpace c = true := by
  unfold pyStripChars
  constructor
  · intro h c hc
    rw [List.reverse_eq_nil_iff] at h
    have hall := List.dropWhile_eq_nil_iff.mp h
    have hdrop : cs.dropWhile isPySpace = [] :=
      dropWhile_eq_nil_of_all isPySpace cs
        (fun x hx => hall x (List.mem_reverse.mpr hx))
    have hmem : c ∈ cs.takeWhile isPySpace ++ cs.dropWhile isPySpace := by
      rw [List.takeWhile_append_dropWhile]; exact hc
    rcases List.mem_append.mp hmem with h2 | h2
    · exact List.mem_takeWhile_imp h2
    · rw [hdrop] at h2; cases h2
  · intro h
    have h1 : cs.dropWhile isPySpace = [] :=
      dropWhile_eq_nil_of_all isPySpace cs (by
        intro x hx
        exact h x ((cs.dropWhile_sublist isPySpace).mem hx))
    rw [h1]; rfl

theorem mem_pyStripChars_sub {cs : List Char} {c : Char} (h : c ∈ pyStripChars cs) :
    c ∈ cs := by
  unfold pyStripChars at h
  rw [List.mem_reverse] at h
  have h1 := ((cs.dropWhile isPySpace).reverse.dropWhile_sublist isPySpace).mem h
  rw [List.mem_reverse] at h1
  exact (cs.dropWhile_sublist isPySpace).mem h1

theorem pyStripChars_all_space_iff (cs : List Char) :
    (∀ c ∈ pyStripChars cs, isPySpace c = true) ↔ pyStripChars cs = [] := by
  constructor
  · intro h
    unfold pyStripChars at h ⊢
    rw [List.reverse_eq_nil_iff]
    apply dropWhile_eq_nil_of_all
    intro x hx
    exact h x (List.mem_reverse.mpr hx)
  · intro h c hc; rw [h] at hc; cases hc

theorem joinChars_space_all (xs : List (List Char)) :
    (∀ c ∈ joinChars [' '] xs, isPySpace c = true) ↔
      ∀ x ∈ xs, ∀ c ∈ x, isPySpace c = true := by
  induction xs with
  | nil => simp [joinChars]
  | cons x xs ih =>
    cases xs with
    | nil => simp [joinChars]
    | cons y ys =>
      rw [joinChars, List.append_assoc]
      constructor
      · intro h
        refine List.forall_mem_cons.mpr ⟨?_, ?_⟩
        · exact fun c hc => h c (List.mem_append.mpr (Or.inl hc))
        · exact ih.mp (fun c hc =>
            h c (List.mem_append.mpr (Or.inr (List.mem_append.mpr (Or.inr hc)))))
      · intro h c hc
        have h1 := List.forall_mem_cons.mp h
        rcases List.mem_append.mp hc with hx | hrest
        · exact h1.1 c hx
        · rcases List.mem_append.mp hrest with hsep | hj
          · have hcs : c = ' ' := by simpa using hsep
            subst hcs; rfl
          · exact ih.mpr h1.2 c hj

theorem str_toList_isEmpty_false_iff (s : String) :
    s.toList.isEmpty = false ↔ s ≠ "" := by
  constructor
  · intro h hcon
    exact absurd ((str_toList_isEmpty_iff s).mpr hcon)
      (by rw [h]; exact Bool.false_ne_true)
  · intro h
    cases he : s.toList.isEmpty
    · rfl
    · exact absurd ((str_toList_isEmpty_iff s).mp he) h

theorem strip_join_eq_empty_iff (cells : List String) :
    pyStripChars (joinChars [' '] (cells.map (fun t => pyStripChars t.toList))) = [] ↔
      ∀ t ∈ cells, pyStripChars t.toList = [] := by
  rw [pyStripChars_eq_nil_iff, joinChars_space_all]
  constructor
  · intro h t ht
    exact (pyStripChars_all_space_iff _).mp (h _ (List.mem_map_of_mem _ ht))
  · intro h x hx
    rcases List.mem_map.mp hx with ⟨t, ht, rfl⟩
    exact (pyStripChars_all_space_iff _).mpr (h t ht)

theorem strip_join_empty_iff (cells : List String) :
    pyStrip (pyJoin " " (cells.map pyStrip)) = "" ↔ ∀ t ∈ cells, pyStrip t = "" := by
  have h0 : (pyJoin " " (cells.map pyStrip)).toList
      = joinChars [' '] (cells.map (fun t => pyStripChars t.toList)) := by
    show joinChars [' '] ((cells.map pyStrip).map String.toList) = _
    rw [List.map_map]
    rfl
  constructor
  · intro h
    have h1 : pyStripChars (pyJoin " " (cells.map pyStrip)).toList = [] :=
      (mk_eq_empty_iff _).mp h
    rw [h0] at h1
    intro t ht
    exact (mk_eq_empty_iff _).mpr ((strip_join_eq_empty_iff cells).mp h1 t ht)
  · intro h
    apply (mk_eq_empty_iff _).mpr
    rw [show pyStripChars (pyJoin " " (cells.map pyStrip)).toList
        = pyStripChars (joinChars [' '] (cells.map (fun t => pyStripChars t.toList)))
      from by rw [h0]]
    exact (strip_join_eq_empty_iff cells).mpr (fun t ht => (mk_eq_empty_iff _).mp (h t ht))

/-! ## Claim C1 -/

/-- C1: for every list of course strings and every major, `flush_group`
first discards each course whose lowercased text contains one of the
filter keywords `credit`, `course`, `from`, `complete`, `:`; if no course
survives it appends no rows and leaves the group counter unchanged, and
otherwise it appends exactly one row `[group_id, major, course]` per
surviving course, in input order, all with group id equal to the counter's
current value, and increments the counter by exactly one. -/
theorem c1_flush_group_policy (courses : List String) (major : String)
    (st : ScrapeState) :
    (flush_group courses major st).output_rows =
      st.output_rows ++
        (courses.filter course_allowed).map
          (fun c => ⟨st.global_group_id, major, c⟩) ∧
    (flush_group courses major st).global_group_id =
      st.global_group_id +
        (if (courses.filter course_allowed).isEmpty then 0 else 1) := by
  unfold flush_group
  by_cases h : (courses.filter course_allowed).isEmpty
  · have he : courses.filter course_allowed = [] := by
      cases hc : courses.filter course_allowed with
      | nil => rfl
      | cons a l => rw [hc] at h; simp [List.isEmpty] at h
    rw [if_pos h]
    constructor
    · rw [he]; simp
    · rw [if_pos h]; rfl
  · rw [if_neg h]
    constructor
    · rfl
    · rw [if_neg h]

/-! ## Claim C5 -/

/-- C5: `row_to_course` returns an empty course text exactly when the
chosen text (stripped link texts joined by `" & "`, with the stripped row
text as fallback) is empty, contains a filter keyword case-insensitively,
or contains no token matched by the course-identifier regex; and it
returns has-credit true exactly when some hours-column cell has non-blank
text. -/
theorem c5_row_to_course_classification (row : TableRow) :
    ((row_to_course row).1 = "" ↔
      chosenText row = "" ∨ keywordHit (chosenText row) = true ∨
        courseIdRegexSearch (chosenText row) = false) ∧
    ((row_to_course row).2 = true ↔ ∃ t ∈ row.hoursColTexts, pyStrip t ≠ "") := by
  constructor
  · simp only [row_to_course]
    by_cases h1 : ((chosenText row).toList.isEmpty || keywordHit (chosenText row)) = true
    · rw [if_pos h1]
      constructor
      · intro _
        simp only [Bool.or_eq_true] at h1
        rcases h1 with h | h
        · exact Or.inl ((str_toList_isEmpty_iff _).mp h)
        · exact Or.inr (Or.inl h)
      · intro _; rfl
    · have h1' : (chosenText row).toList.isEmpty = false ∧
          keywordHit (chosenText row) = false := by
        simp only [Bool.or_eq_true, not_or, Bool.not_eq_true] at h1
        exact h1
      rw [if_neg h1]
      by_cases h2 : courseIdRegexSearch (chosenText row) = false
      · rw [if_pos (by rw [h2]; rfl)]
        constructor
        · intro _; exact Or.inr (Or.inr h2)
        · intro _; rfl
      · have hs : courseIdRegexSearch (chosenText row) = true := by
          cases hc : courseIdRegexSearch (chosenText row)
          · exact absurd hc h2
          · rfl
        rw [if_neg (by rw [hs]; simp)]
        constructor
        · intro h
          have h3 : (chosenText row).toList.isEmpty = true :=
            (str_toList_isEmpty_iff _).mpr h
          rw [h1'.1] at h3
          exact absurd h3 Bool.false_ne_true
        · rintro (h | h | h)
          · have h3 : (chosenText row).toList.isEmpty = true :=
              (str_toList_isEmpty_iff _).mpr h
            rw [h1'.1] at h3
            exact absurd h3 Bool.false_ne_true
          · rw [h1'.2] at h
            exact absurd h Bool.false_ne_true
          · rw [hs] at h
            exact Bool.noConfusion h
  · have hval : (row_to_course row).2 =
        !(pyStrip (pyJoin " " (row.hoursColTexts.map pyStrip))).toList.isEmpty := by
      simp only [row_to_course]
      split_ifs <;> rfl
    rw [hval]
    rw [Bool.not_eq_true']
    rw [str_toList_isEmpty_false_iff]
    constructor
    · intro h
      by_contra hno
      push_neg at hno
      exact h ((strip_join_empty_iff _).mpr hno)
    · intro h hcon
      rcases h with ⟨t, ht, hne⟩
      exact hne ((strip_join_empty_iff _).mp hcon t ht)

/-! ## Helper lemmas: segmentation (claims C3, C4) -/

theorem recognizedTexts_nil : recognizedTexts [] = [] := rfl

theorem recognizedTexts_cons (r : TableRow) (rs : List TableRow) :
    recognizedTexts (r :: rs) =
      if (row_to_course r).1.toList.isEmpty then recognizedTexts rs
      else (row_to_course r).1 :: recognizedTexts rs := by
  unfold recognizedTexts
  rw [List.filterMap_cons]
  by_cases h : (row_to_course r).1.toList.isEmpty = true
  · rw [if_pos h]
    simp only [h]
    rfl
  · have hb : (row_to_course r).1.toList.isEmpty = false := by
      cases hc : (row_to_course r).1.toList.isEmpty
      · rfl
      · exact absurd hc h
    rw [if_neg h]
    simp only [hb]
    rfl

theorem sepSegments_ne_nil : ∀ rows : List TableRow, sepSegments rows ≠ []
  | [] => by simp [sepSegments]
  | r :: rs => by
    unfold sepSegments
    by_cases h : is_sep r = true
    · rw [if_pos h]; simp
    · rw [if_neg h]
      cases hs : sepSegments rs <;> simp

theorem sepLoop_eq (major : String) :
    ∀ (rows : List TableRow) (st : ScrapeState) (bucket : List String),
      sepLoop major rows st bucket =
        match sepSegments rows with
        | [] => st
        | seg :: rest =>
          rest.foldl (fun s g => flush_group (recognizedTexts g) major s)
            (flush_group (bucket ++ recognizedTexts seg) major st)
  | [], st, bucket => by
    simp only [sepLoop, sepSegments, recognizedTexts_nil, List.append_nil, List.foldl_nil]
  | r :: rs, st, bucket => by
    by_cases hsep : is_sep r = true
    · rw [show sepLoop major (r :: rs) st bucket
          = sepLoop major rs (flush_group bucket major st) [] from by
        simp only [sepLoop]; rw [if_pos hsep]]
      rw [sepLoop_eq major rs (flush_group bucket major st) []]
      rw [show sepSegments (r :: rs) = [] :: sepSegments rs from by
        simp only [sepSegments]; rw [if_pos hsep]]
      cases hs : sepSegments rs with
      | nil => exact absurd hs (sepSegments_ne_nil rs)
      | cons seg rest =>
        simp only [List.foldl_cons, recognizedTexts_nil, List.append_nil,
          List.nil_append]
    · have hseg : sepSegments (r :: rs) =
          match sepSegments rs with
          | [] => [[r]]
          | seg :: rest => (r :: seg) :: rest := by
        simp only [sepSegments]; rw [if_neg hsep]
      by_cases htxt : (row_to_course r).1.toList.isEmpty = true
      · rw [show sepLoop major (r :: rs) st bucket = sepLoop major rs st bucket from by
          simp only [sepLoop]; rw [if_neg hsep, if_pos htxt]]
        rw [sepLoop_eq major rs st bucket, hseg]
        cases hs : sepSegments rs with
        | nil => exact absurd hs (sepSegments_ne_nil rs)
        | cons seg rest =>
          simp only [recognizedTexts_cons, htxt, if_true]
      · rw [show sepLoop major (r :: rs) st bucket
            = sepLoop major rs st (bucket ++ [(row_to_course r).1]) from by
          simp only [sepLoop]; rw [if_neg hsep, if_neg htxt]]
        rw [sepLoop_eq major rs st (bucket ++ [(row_to_course r).1]), hseg]
        cases hs : sepSegments rs with
        | nil => exact absurd hs (sepSegments_ne_nil rs)
        | cons seg rest =>
          have hb : (row_to_course r).1.toList.isEmpty = false := by
            cases hc : (row_to_course r).1.toList.isEmpty
            · rfl
            · exact absurd hc htxt
          simp only [recognizedTexts_cons, hb, Bool.false_eq_true, if_false,
            List.append_assoc, List.singleton_append]

theorem is_sep_eraseCredit (r : TableRow) : is_sep (eraseCredit r) = is_sep r := rfl

theorem row_to_course_fst_eraseCredit (r : TableRow) :
    (row_to_course (eraseCredit r)).1 = (row_to_course r).1 := by
  have hc : chosenText (eraseCredit r) = chosenText r := rfl
  simp only [row_to_course, hc]
  split_ifs <;> rfl

theorem sepLoop_eraseCredit (major : String) :
    ∀ (rows : List TableRow) (st : ScrapeState) (bucket : List String),
      sepLoop major (rows.map eraseCredit) st bucket = sepLoop major rows st bucket
  | [], st, bucket => rfl
  | r :: rs, st, bucket => by
    rw [List.map_cons]
    simp only [sepLoop, is_sep_eraseCredit, row_to_course_fst_eraseCredit]
    by_cases hsep : is_sep r = true
    · rw [if_pos hsep, if_pos hsep, sepLoop_eraseCredit major rs]
    · rw [if_neg hsep, if_neg hsep]
      by_cases htxt : (row_to_course r).1.toList.isEmpty = true
      · rw [if_pos htxt, if_pos htxt, sepLoop_eraseCredit major rs]
      · rw [if_neg htxt, if_neg htxt, sepLoop_eraseCredit major rs]

theorem any_is_sep_eraseCredit (rows : List TableRow) :
    (rows.map eraseCredit).any is_sep = rows.any is_sep := by
  rw [List.any_map]
  rfl

/-! ## Claim C3 -/

/-- C3: on any table with at least one separator row,
`extract_courses_from_table` flushes, as one candidate group each and in
order, the recognized course texts of the maximal runs of rows lying
between consecutive separators (with a final flush after the last row);
and the has-credit flag of rows is ignored in this branch. -/
theorem c3_separator_segmentation (rows : List TableRow) (major : String)
    (inside_category : Bool) (st : ScrapeState)
    (hsep : rows.any is_sep = true) :
    extract_courses_from_table rows major inside_category st =
      (sepSegments rows).foldl
        (fun s seg => flush_group (recognizedTexts seg) major s) st ∧
    extract_courses_from_table (rows.map eraseCredit) major inside_category st =
      extract_courses_from_table rows major inside_category st := by
  have hne : rows.isEmpty = false := by
    cases rows with
    | nil => cases hsep
    | cons r rs => rfl
  have hbranch : extract_courses_from_table rows major inside_category st =
      sepLoop major rows st [] := by
    unfold extract_courses_from_table
    rw [hne]
    simp only [Bool.false_eq_true, if_false]
    rw [if_pos hsep]
  constructor
  · rw [hbranch, sepLoop_eq major rows st []]
    cases hs : sepSegments rows with
    | nil => exact absurd hs (sepSegments_ne_nil rows)
    | cons seg rest =>
      simp only [List.foldl_cons, List.nil_append]
  · have hne' : (rows.map eraseCredit).isEmpty = false := by
      cases rows with
      | nil => cases hsep
      | cons r rs => rfl
    have hbranch' :
        extract_courses_from_table (rows.map eraseCredit) major inside_category st =
          sepLoop major (rows.map eraseCredit) st [] := by
      unfold extract_courses_from_table
      rw [hne']
      simp only [Bool.false_eq_true, if_false]
      rw [if_pos (by rw [any_is_sep_eraseCredit]; exact hsep)]
    rw [hbranch, hbranch', sepLoop_eraseCredit major rows st []]

/-- Concrete table for the C3 witness: a header row, two course rows, a
sub-header, and one more course row. -/
def c3Rows : List TableRow :=
  [⟨"even areaheader", [], [], "Part A"⟩,
   ⟨"even", ["MATH 221"], ["5"], "MATH 221"⟩,
   ⟨"odd", ["MATH 222"], [], "MATH 222"⟩,
   ⟨"even areasubheader", [], [], "Part B"⟩,
   ⟨"odd", ["CHEM 103"], ["4"], "CHEM 103"⟩]

/-- Witness for C3 at a concrete separator table. -/
theorem c3_separator_segmentation_witness :
    c3Rows.any is_sep = true ∧
    (extract_courses_from_table c3Rows "Chemistry" false ⟨[], 1⟩ =
      (sepSegments c3Rows).foldl
        (fun s seg => flush_group (recognizedTexts seg) "Chemistry" s) ⟨[], 1⟩ ∧
     extract_courses_from_table (c3Rows.map eraseCredit) "Chemistry" false ⟨[], 1⟩ =
      extract_courses_from_table c3Rows "Chemistry" false ⟨[], 1⟩) :=
  ⟨by decide, c3_separator_segmentation c3Rows "Chemistry" false ⟨[], 1⟩ (by decide)⟩

/-! ## Claim C4 -/

theorem flatLoop_eq_foldl (major : String) :
    ∀ (rows : List TableRow) (st : ScrapeState) (bundle : List String),
      flatLoop major rows st bundle =
        (fun p : ScrapeState × List String => flush_group p.2 major p.1)
          (rows.foldl (flatSpecStep major) (st, bundle))
  | [], st, bundle => rfl
  | r :: rs, st, bundle => by
    simp only [flatLoop, List.foldl_cons]
    by_cases h1 : (row_to_course r).1.toList.isEmpty = true
    · rw [if_pos h1, flatLoop_eq_foldl major rs]
      have hstep : flatSpecStep major (st, bundle) r =
          (flush_group bundle major st, []) := by
        unfold flatSpecStep
        rw [if_pos h1]
      rw [hstep]
    · rw [if_neg h1]
      by_cases h2 : (row_to_course r).2 = true
      · rw [if_pos h2, flatLoop_eq_foldl major rs]
        have hstep : flatSpecStep major (st, bundle) r =
            ({ output_rows := (flush_group bundle major st).output_rows ++
                [⟨(flush_group bundle major st).global_group_id, major,
                  (row_to_course r).1⟩],
               global_group_id := (flush_group bundle major st).global_group_id + 1 },
             []) := by
          unfold flatSpecStep
          rw [if_neg h1, if_pos h2]
        rw [hstep]
      · rw [if_neg h2, flatLoop_eq_foldl major rs]
        have hstep : flatSpecStep major (st, bundle) r =
            (st, bundle ++ [(row_to_course r).1]) := by
          unfold flatSpecStep
          rw [if_neg h1, if_neg h2]
        rw [hstep]

/-- C4: on a flat table (no separator rows, not inside an accordion
category), `extract_courses_from_table` implements exactly the spec's
per-row policy: a row with empty course text flushes and resets the
pending bundle; a recognized course row with a non-empty credit cell first
flushes the bundle and is then emitted alone as its own single-course
group under a fresh group id; a recognized course row without credit joins
the bundle; and the bundle is flushed once more after the last row. -/
theorem c4_flat_table_policy (rows : List TableRow) (major : String)
    (st : ScrapeState) (hns : rows.any is_sep = false) :
    extract_courses_from_table rows major false st = flatSpec rows major st := by
  cases rows with
  | nil => rfl
  | cons r rs =>
    unfold extract_courses_from_table
    rw [show (r :: rs : List TableRow).isEmpty = false from rfl]
    simp only [Bool.false_eq_true, if_false]
    rw [hns]
    simp only [Bool.false_eq_true, if_false]
    unfold flatSpec
    exact flatLoop_eq_foldl major (r :: rs) st []

/-- Concrete flat table for the C4 witness: a credit-bearing course, two
bundled courses, a filler row, and one more course. -/
def c4Rows : List TableRow :=
  [⟨"even", ["MATH 221"], ["5"], "MATH 221"⟩,
   ⟨"odd", ["CHEM 103"], [], "CHEM 103"⟩,
   ⟨"even", ["CHEM 104"], [], "CHEM 104"⟩,
   ⟨"odd", [], [], ""⟩,
   ⟨"even", ["BIO 101"], [], "BIO 101"⟩]

/-- Witness for C4 at a concrete flat table. -/
theorem c4_flat_table_policy_witness :
    c4Rows.any is_sep = false ∧
    extract_courses_from_table c4Rows "Chemistry" false ⟨[], 1⟩ =
      flatSpec c4Rows "Chemistry" ⟨[], 1⟩ :=
  ⟨by decide, c4_flat_table_policy c4Rows "Chemistry" ⟨[], 1⟩ (by decide)⟩

/-! ## Claim C8 -/

theorem pairwise_of_forall_rel {R : α → α → Prop} (h : ∀ a b, R a b) :
    ∀ l : List α, l.Pairwise R
  | [] => List.Pairwise.nil
  | a :: l => List.Pairwise.cons (fun b _ => h a b) (pairwise_of_forall_rel h l)

theorem flush_group_inv (courses : List String) (major : String)
    (st : ScrapeState) (h : ScrapeInv st) :
    ScrapeInv (flush_group courses major st) := by
  obtain ⟨hp, hb⟩ := h
  unfold flush_group
  by_cases he : (courses.filter course_allowed).isEmpty
  · rw [if_pos he]; exact ⟨hp, hb⟩
  · rw [if_neg he]
    constructor
    · rw [List.pairwise_append]
      refine ⟨hp, ?_, ?_⟩
      · rw [List.pairwise_map]
        exact pairwise_of_forall_rel (fun a b => Or.inr ⟨rfl, rfl⟩) _
      · intro x hx y hy
        rcases List.mem_map.mp hy with ⟨c, _, rfl⟩
        exact Or.inl (hb x hx)
    · intro r hr
      rcases List.mem_append.mp hr with h1 | h1
      · exact Nat.lt_succ_of_lt (hb r h1)
      · rcases List.mem_map.mp h1 with ⟨c, _, rfl⟩
        exact Nat.lt_succ_self _

theorem append_fresh_inv (major txt : String) (st : ScrapeState)
    (h : ScrapeInv st) :
    ScrapeInv ⟨st.output_rows ++ [⟨st.global_group_id, major, txt⟩],
               st.global_group_id + 1⟩ := by
  obtain ⟨hp, hb⟩ := h
  constructor
  · rw [List.pairwise_append]
    refine ⟨hp, List.pairwise_singleton _ _, ?_⟩
    intro x hx y hy
    rcases List.mem_singleton.mp hy with rfl
    exact Or.inl (hb x hx)
  · intro r hr
    rcases List.mem_append.mp hr with h1 | h1
    · exact Nat.lt_succ_of_lt (hb r h1)
    · rcases List.mem_singleton.mp h1 with rfl
      exact Nat.lt_succ_self _

theorem sepLoop_inv (major : String) :
    ∀ (rows : List TableRow) (st : ScrapeState) (bucket : List String),
      ScrapeInv st → ScrapeInv (sepLoop major rows st bucket)
  | [], st, bucket, h => flush_group_inv bucket major st h
  | r :: rs, st, bucket, h => by
    simp only [sepLoop]
    by_cases hsep : is_sep r = true
    · rw [if_pos hsep]
      exact sepLoop_inv major rs _ _ (flush_group_inv bucket major st h)
    · rw [if_neg hsep]
      by_cases htxt : (row_to_course r).1.toList.isEmpty = true
      · rw [if_pos htxt]
        exact sepLoop_inv major rs _ _ h
      · rw [if_neg htxt]
        exact sepLoop_inv major rs _ _ h

theorem catLoop_inv (major : String) :
    ∀ (rows : List TableRow) (st : ScrapeState) (bucket : List String),
      ScrapeInv st → ScrapeInv (catLoop major rows st bucket)
  | [], st, bucket, h => flush_group_inv bucket major st h
  | r :: rs, st, bucket, h => by
    simp only [catLoop]
    by_cases htxt : (row_to_course r).1.toList.isEmpty = true
    · rw [if_pos htxt]
      exact catLoop_inv major rs _ _ (flush_group_inv bucket major st h)
    · rw [if_neg htxt]
      exact catLoop_inv major rs _ _ h

theorem flatLoop_inv (major : String) :
    ∀ (rows : List TableRow) (st : ScrapeState) (bundle : List String),
      ScrapeInv st → ScrapeInv (flatLoop major rows st bundle)
  | [], st, bundle, h => flush_group_inv bundle major st h
  | r :: rs, st, bundle, h => by
    simp only [flatLoop]
    by_cases h1 : (row_to_course r).1.toList.isEmpty = true
    · rw [if_pos h1]
      exact flatLoop_inv major rs _ _ (flush_group_inv bundle major st h)
    · rw [if_neg h1]
      by_cases h2 : (row_to_course r).2 = true
      · rw [if_pos h2]
        exact flatLoop_inv major rs _ _
          (append_fresh_inv major _ _ (flush_group_inv bundle major st h))
      · rw [if_neg h2]
        exact flatLoop_inv major rs _ _ h

/-- C8: the grouping invariant — group ids nondecreasing along
`output_rows` (hence equal ids contiguous, with one major per group, and
first appearances strictly increasing) and `global_group_id` strictly
above every emitted id — holds initially and is preserved by both
`flush_group` and `extract_courses_from_table`, so no group id is ever
reused across groups or majors. -/
theorem c8_group_id_invariant :
    ScrapeInv ⟨[], 1⟩ ∧
    (∀ (courses : List String) (major : String) (st : ScrapeState),
      ScrapeInv st → ScrapeInv (flush_group courses major st)) ∧
    (∀ (rows : List TableRow) (major : String) (inside_category : Bool)
      (st : ScrapeState),
      ScrapeInv st → ScrapeInv (extract_courses_from_table rows major inside_category st)) := by
  refine ⟨⟨List.Pairwise.nil, ?_⟩, flush_group_inv, ?_⟩
  · intro r hr; cases hr
  · intro rows major inside_category st h
    unfold extract_courses_from_table
    by_cases h0 : rows.isEmpty = true
    · rw [if_pos h0]; exact h
    · rw [if_neg h0]
      by_cases h1 : rows.any is_sep = true
      · rw [if_pos h1]; exact sepLoop_inv major rows st [] h
      · rw [if_neg h1]
        by_cases h2 : inside_category = true
        · rw [if_pos h2]; exact catLoop_inv major rows st [] h
        · rw [if_neg h2]; exact flatLoop_inv major rows st [] h

/-- Concrete flat table for the C8 witness. -/
def c8Rows : List TableRow :=
  [⟨"even", ["STAT 240"], ["4"], "STAT 240"⟩,
   ⟨"odd", ["STAT 340"], [], "STAT 340"⟩,
   ⟨"even", ["STAT 451"], [], "STAT 451"⟩]

/-- Witness for C8: the invariant after a concrete extraction from the
initial state, with every hypothesis discharged at that input. -/
theorem c8_group_id_invariant_witness :
    ScrapeInv ⟨[], 1⟩ ∧
    ScrapeInv (flush_group ["MATH 221"] "Math" ⟨[], 1⟩) ∧
    ScrapeInv (extract_courses_from_table c8Rows "Statistics" false ⟨[], 1⟩) :=
  ⟨c8_group_id_invariant.1,
   c8_group_id_invariant.2.1 ["MATH 221"] "Math" ⟨[], 1⟩ c8_group_id_invariant.1,
   c8_group_id_invariant.2.2 c8Rows "Statistics" false ⟨[], 1⟩ c8_group_id_invariant.1⟩

/-! ## Claim C7 -/

/-- C7: when the requirements tab cannot be opened or no header XPath
matches, the scrape loop skips the program without raising: the output
rows, the group counter, and the per-major CSV files written so far are
all left unchanged, and the loop continues with the remaining programs. -/
theorem c7_program_skip_on_error (page : ProgramPage) (title : String)
    (env : ScrapeEnv) (rest : List (ProgramPage × String))
    (h : page.tabOpens = false ∨ page.headerFound = false) :
    processProgram page title env = env ∧
    scrapePrograms ((page, title) :: rest) env = scrapePrograms rest env := by
  have h1 : processProgram page title env = env := by
    unfold processProgram
    rcases h with h | h
    · rw [h]; rfl
    · cases ht : page.tabOpens
      · rfl
      · rw [h]; rfl
  refine ⟨h1, ?_⟩
  unfold scrapePrograms
  rw [List.foldl_cons]
  rw [show processProgram (page, title).1 (page, title).2 env = env from h1]

/-- A concrete page whose requirements tab fails to open. -/
def c7BadPage : ProgramPage := ⟨false, true, [([⟨"even", ["MATH 221"], [], "MATH 221"⟩], false)]⟩

/-- A concrete environment with one already-written CSV file. -/
def c7Env : ScrapeEnv :=
  ⟨⟨[⟨1, "Math", "MATH 221"⟩], 2⟩, [("Mathematics_BS.csv", [⟨1, "Math", "MATH 221"⟩])]⟩

/-- Witness for C7 at a concrete failing page. -/
theorem c7_program_skip_on_error_witness :
    (c7BadPage.tabOpens = false ∨ c7BadPage.headerFound = false) ∧
    (processProgram c7BadPage "Economics" c7Env = c7Env ∧
     scrapePrograms ((c7BadPage, "Economics") :: []) c7Env = scrapePrograms [] c7Env) :=
  ⟨Or.inl rfl, c7_program_skip_on_error c7BadPage "Economics" c7Env [] (Or.inl rfl)⟩

/-! ## Claim C10 -/

/-- C10 (counterexample): it is not the case that every file of the
repository is a terminating batch job — `src/ai/app.py` starts a Flask
HTTP server. -/
theorem c10_not_all_batch_jobs : ¬ allFilesAreBatchJobs := by
  intro h
  have := h ("src/ai/app.py", EntryBehavior.httpServer) (by decide)
  cases this

/-- C10 (amended): every file of the repository other than
`src/ai/app.py` is a standalone batch job that terminates on its own;
`src/ai/app.py` instead starts a long-running Flask HTTP server on port
5000 when invoked. -/
theorem c10_all_but_app_are_batch_jobs :
    (∀ f ∈ repoFiles, f.1 ≠ "src/ai/app.py" → f.2 = EntryBehavior.batchJob) ∧
    ("src/ai/app.py", EntryBehavior.httpServer) ∈ repoFiles := by
  refine ⟨?_, by decide⟩
  intro f hf hne
  fin_cases hf <;> first | rfl | exact absurd rfl hne

/-- Witness for C10 (amended) at a concrete file. -/
theorem c10_all_but_app_are_batch_jobs_witness :
    ("src/ai/runModel.py", EntryBehavior.batchJob).2 = EntryBehavior.batchJob :=
  c10_all_but_app_are_batch_jobs.1 ("src/ai/runModel.py", EntryBehavior.batchJob)
    (by decide) (by decide)

/-! ## Claim C6 -/

/-- C6: the post-processing fallback rules are deterministic — every one
of `_enforce_schema` and the fallback builders is a pure function of the
parsed model output, the advising payload, and the program list: its
embedding takes no other input (no hidden state, clock, or randomness),
and evaluations at equal inputs are equal. -/
theorem c6_fallbacks_deterministic (data data' payload payload' : JObj)
    (programs programs' : List RecProgram)
    (hd : data = data') (hp : payload = payload') (hpr : programs = programs') :
    _enforce_schema data payload = _enforce_schema data' payload' ∧
    _fallback_programs_from_payload payload = _fallback_programs_from_payload payload' ∧
    _fallback_next_steps payload programs = _fallback_next_steps payload' programs' ∧
    _fallback_career_paths payload programs = _fallback_career_paths payload' programs' ∧
    _fallback_pros payload programs = _fallback_pros payload' programs' ∧
    _fallback_cons payload programs = _fallback_cons payload' programs' := by
  subst hd; subst hp; subst hpr
  exact ⟨rfl, rfl, rfl, rfl, rfl, rfl⟩

/-- A concrete advising payload used by the C6 witness. -/
def c6Payload : JObj :=
  [("candidate_programs",
    JValue.arr [JValue.obj [("name", JValue.str "Data Science"),
                            ("completion_pct", JValue.num 70)]]),
   ("interests", JValue.arr [JValue.str "data science"])]

/-- Witness for C6 at concrete equal inputs. -/
theorem c6_fallbacks_deterministic_witness :
    _enforce_schema [] c6Payload = _enforce_schema [] c6Payload ∧
    _fallback_programs_from_payload c6Payload = _fallback_programs_from_payload c6Payload ∧
    _fallback_next_steps c6Payload [] = _fallback_next_steps c6Payload [] ∧
    _fallback_career_paths c6Payload [] = _fallback_career_paths c6Payload [] ∧
    _fallback_pros c6Payload [] = _fallback_pros c6Payload [] ∧
    _fallback_cons c6Payload [] = _fallback_cons c6Payload [] :=
  c6_fallbacks_deterministic [] [] c6Payload c6Payload [] [] rfl rfl rfl

/-! ## Claim C2 -/

/-- A model output whose `recommended_programs` value is a number: the
`for item in data.get("recommended_programs", [])` loop raises
`TypeError` on it. -/
def c2BadData : JObj := [("recommended_programs", JValue.num 42)]

/-- C2 (counterexample): `_enforce_schema` does not return a dict for
every model-output dict — on a non-iterable `recommended_programs` value
it raises `TypeError` instead of returning the five-key dict. -/
theorem c2_enforce_schema_raises :
    _enforce_schema c2BadData [] = .error .typeError := rfl

theorem iterOk_exists {v : JValue} (h : iterOk v = true) :
    ∃ xs, pyIterate v = .ok xs := by
  unfold iterOk at h
  cases hi : pyIterate v with
  | ok xs => exact ⟨xs, rfl⟩
  | error e => rw [hi] at h; simp at h

theorem excBind_ok (a : α) (f : α → Except PyErr β) :
    ((Except.ok a : Except PyErr α) >>= f) = f a := rfl

theorem excPure (a : α) : (pure a : Except PyErr α) = Except.ok a := rfl

theorem fallback_programs_ok (payload : JObj)
    (h : iterOk (pyDictGet payload "candidate_programs" (.arr [])) = true) :
    ∃ l, _fallback_programs_from_payload payload = .ok l := by
  obtain ⟨xs, hx⟩ := iterOk_exists h
  cases he : _fallback_programs_from_payload payload with
  | ok l => exact ⟨l, rfl⟩
  | error e =>
    simp only [_fallback_programs_from_payload, hx, excBind_ok, excPure] at he
    cases he

theorem fallback_career_ok (payload : JObj) (progs : List RecProgram)
    (h : iterOk (pyDictGet payload "interests" (.arr [])) = true) :
    ∃ l, _fallback_career_paths payload progs = .ok l := by
  obtain ⟨xs, hx⟩ := iterOk_exists h
  cases he : _fallback_career_paths payload progs with
  | ok l => exact ⟨l, rfl⟩
  | error e =>
    simp only [_fallback_career_paths, hx, excBind_ok, excPure] at he
    cases he

theorem fallback_pros_ok (payload : JObj) (progs : List RecProgram)
    (h : iterOk (pyDictGet payload "candidate_programs" (.arr [])) = true) :
    ∃ l, _fallback_pros payload progs = .ok l := by
  obtain ⟨xs, hx⟩ := iterOk_exists h
  cases he : _fallback_pros payload progs with
  | ok l => exact ⟨l, rfl⟩
  | error e =>
    simp only [_fallback_pros, hx, excBind_ok, excPure] at he
    cases he

theorem fallback_cons_ok (payload : JObj) (progs : List RecProgram)
    (h : iterOk (pyDictGet payload "candidate_programs" (.arr [])) = true) :
    ∃ l, _fallback_cons payload progs = .ok l := by
  obtain ⟨xs, hx⟩ := iterOk_exists h
  cases he : _fallback_cons payload progs with
  | ok l => exact ⟨l, rfl⟩
  | error e =>
    simp only [_fallback_cons, hx, excBind_ok, excPure] at he
    cases he

theorem fallback_next_steps_ok (payload : JObj) (progs : List RecProgram)
    (h : iterOk (pyDictGet payload "candidate_programs" (.arr [])) = true) :
    ∃ l, _fallback_next_steps payload progs = .ok l := by
  obtain ⟨xs, hx⟩ := iterOk_exists h
  cases he : _fallback_next_steps payload progs with
  | ok l => exact ⟨l, rfl⟩
  | error e =>
    simp only [_fallback_next_steps, hx, excBind_ok, excPure] at he
    cases he

theorem ite_fallback_ok {α : Type} (x : List α) (fb : Except PyErr (List α))
    (hfb : ∃ l, fb = .ok l) :
    ∃ c, orFallback x fb = .ok c ∧
      (x ≠ [] → c = x) ∧ (x = [] → fb = .ok c) := by
  obtain ⟨l, hl⟩ := hfb
  unfold orFallback
  by_cases he : x.isEmpty = true
  · have hx : x = [] := by
      cases x with
      | nil => rfl
      | cons a t => cases he
    refine ⟨l, by rw [if_pos he, hl], ?_, fun _ => hl⟩
    intro hne; exact absurd hx hne
  · have hne : x ≠ [] := by
      intro hc; subst hc; exact he rfl
    exact ⟨x, by rw [if_neg he]; rfl, fun _ => rfl, fun hc => absurd hc hne⟩

theorem clamp100_bounds (q : ℚ) : 0 ≤ clamp100 q ∧ clamp100 q ≤ 100 := by
  unfold clamp100
  constructor
  · exact le_max_left 0 _
  · apply max_le
    · norm_num
    · exact min_le_left _ _

theorem mkProgram_bounds (item : JValue) (p : RecProgram)
    (h : mkProgram item = some p) :
    p.name ≠ "" ∧ 0 ≤ p.feasibility_score_0_100 ∧ p.feasibility_score_0_100 ≤ 100 := by
  cases item with
  | obj o =>
    simp only [mkProgram] at h
    by_cases hn : (pyStrip (pyStr (pyDictGet o "name" (.str "")))).toList.isEmpty = true
    · rw [if_pos hn] at h; cases h
    · rw [if_neg hn] at h
      have hp := Option.some.inj h
      subst hp
      refine ⟨?_, (clamp100_bounds _).1, (clamp100_bounds _).2⟩
      intro he
      exact absurd ((str_toList_isEmpty_iff _).mpr he) hn
  | null => cases h
  | bool b => cases h
  | num q => cases h
  | str s => cases h
  | arr xs => cases h

theorem clamp100_zero : clamp100 0 = 0 := by
  unfold clamp100
  rw [min_eq_right (by norm_num : (0 : ℚ) ≤ 100), max_self]

theorem mkProgram_nonnumeric_zero (o : JObj) (p : RecProgram)
    (hf : pyFloat (pyDictGet o "feasibility_score_0_100" (.num 0)) = none)
    (h : mkProgram (.obj o) = some p) : p.feasibility_score_0_100 = 0 := by
  simp only [mkProgram, hf, Option.getD_none] at h
  by_cases hn : (pyStrip (pyStr (pyDictGet o "name" (.str "")))).toList.isEmpty = true
  · rw [if_pos hn] at h; cases h
  · rw [if_neg hn] at h
    have hp := Option.some.inj h
    subst hp
    exact clamp100_zero

/-- C2 (amended): for every model-output dict whose
`recommended_programs` value is iterable, and every advising payload whose
`candidate_programs` and `interests` values are iterable (a non-iterable
value in any of these makes Python raise `TypeError`), `_enforce_schema`
returns a dict with exactly the five keys, replaces each of the four
string-list fields that normalizes to the empty list by its fallback
computed from the payload, keeps the model's programs exactly when a valid
one survives (falling back to `candidate_programs` otherwise), and every
retained program has a non-empty name and a score clamped into `[0, 100]`,
with non-numeric scores becoming 0. -/
theorem c2_enforce_schema_amended (data payload : JObj)
    (h1 : iterOk (pyDictGet data "recommended_programs" (.arr [])) = true)
    (h2 : iterOk (pyDictGet payload "candidate_programs" (.arr [])) = true)
    (h3 : iterOk (pyDictGet payload "interests" (.arr [])) = true) :
    ∃ (items : List JValue) (programs : List RecProgram)
      (career pros cons steps : List String),
      pyIterate (pyDictGet data "recommended_programs" (.arr [])) = .ok items ∧
      _enforce_schema data payload =
        .ok [("recommended_programs", .arr (programs.map progToJValue)),
             ("career_paths", strListJValue career),
             ("pros", strListJValue pros),
             ("cons", strListJValue cons),
             ("next_steps", strListJValue steps)] ∧
      (∀ out, _enforce_schema data payload = .ok out →
        out.map Prod.fst =
          ["recommended_programs", "career_paths", "pros", "cons", "next_steps"]) ∧
      (dataPrograms items ≠ [] → programs = dataPrograms items) ∧
      (dataPrograms items = [] →
        _fallback_programs_from_payload payload = .ok programs) ∧
      (∀ p ∈ dataPrograms items,
        p.name ≠ "" ∧ 0 ≤ p.feasibility_score_0_100 ∧
          p.feasibility_score_0_100 ≤ 100) ∧
      (∀ (o : JObj) (p : RecProgram),
        pyFloat (pyDictGet o "feasibility_score_0_100" (.num 0)) = none →
        mkProgram (.obj o) = some p → p.feasibility_score_0_100 = 0) ∧
      ((ensure_list_of_strings (pyDictGet data "career_paths" .null) ≠ [] →
          career = ensure_list_of_strings (pyDictGet data "career_paths" .null)) ∧
       (ensure_list_of_strings (pyDictGet data "career_paths" .null) = [] →
          _fallback_career_paths payload programs = .ok career)) ∧
      ((ensure_list_of_strings (pyDictGet data "pros" .null) ≠ [] →
          pros = ensure_list_of_strings (pyDictGet data "pros" .null)) ∧
       (ensure_list_of_strings (pyDictGet data "pros" .null) = [] →
          _fallback_pros payload programs = .ok pros)) ∧
      ((ensure_list_of_strings (pyDictGet data "cons" .null) ≠ [] →
          cons = ensure_list_of_strings (pyDictGet data "cons" .null)) ∧
       (ensure_list_of_strings (pyDictGet data "cons" .null) = [] →
          _fallback_cons payload programs = .ok cons)) ∧
      ((ensure_list_of_strings (pyDictGet data "next_steps" .null) ≠ [] →
          steps = ensure_list_of_strings (pyDictGet data "next_steps" .null)) ∧
       (ensure_list_of_strings (pyDictGet data "next_steps" .null) = [] →
          _fallback_next_steps payload programs = .ok steps)) := by
  obtain ⟨items, hitems⟩ := iterOk_exists h1
  obtain ⟨programs, hprogs, hprogs1, hprogs2⟩ :=
    ite_fallback_ok (dataPrograms items) _ (fallback_programs_ok payload h2)
  obtain ⟨career, hcar, hcar1, hcar2⟩ :=
    ite_fallback_ok (ensure_list_of_strings (pyDictGet data "career_paths" .null)) _
      (fallback_career_ok payload programs h3)
  obtain ⟨pros, hpros, hpros1, hpros2⟩ :=
    ite_fallback_ok (ensure_list_of_strings (pyDictGet data "pros" .null)) _
      (fallback_pros_ok payload programs h2)
  obtain ⟨cons, hcons, hcons1, hcons2⟩ :=
    ite_fallback_ok (ensure_list_of_strings (pyDictGet data "cons" .null)) _
      (fallback_cons_ok payload programs h2)
  obtain ⟨steps, hsteps, hsteps1, hsteps2⟩ :=
    ite_fallback_ok (ensure_list_of_strings (pyDictGet data "next_steps" .null)) _
      (fallback_next_steps_ok payload programs h2)
  have hmain : _enforce_schema data payload =
      .ok [("recommended_programs", .arr (programs.map progToJValue)),
           ("career_paths", strListJValue career),
           ("pros", strListJValue pros),
           ("cons", strListJValue cons),
           ("next_steps", strListJValue steps)] := by
    simp only [_enforce_schema, hitems, excBind_ok, hprogs, hcar, hpros, hcons,
      hsteps, excPure]
  refine ⟨items, programs, career, pros, cons, steps, hitems, hmain, ?_,
    hprogs1, hprogs2, ?_, ?_, ⟨hcar1, hcar2⟩, ⟨hpros1, hpros2⟩,
    ⟨hcons1, hcons2⟩, ⟨hsteps1, hsteps2⟩⟩
  · intro out hout
    rw [hmain] at hout
    have := Except.ok.inj hout
    subst this
    rfl
  · intro p hp
    rcases List.mem_filterMap.mp hp with ⟨item, _, hitem⟩
    exact mkProgram_bounds item p hitem
  · intro o p hf h
    exact mkProgram_nonnumeric_zero o p hf h

/-- A concrete model output for the C2 witness: one valid program with an
out-of-range score, and a non-empty `career_paths`. -/
def c2Data : JObj :=
  [("recommended_programs",
    JValue.arr [JValue.obj [("name", JValue.str "Data Science"),
                            ("feasibility_score_0_100", JValue.num 150),
                            ("why", JValue.str "strong fit")]]),
   ("career_paths", JValue.arr [JValue.str "Data Scientist"])]

/-- A concrete advising payload for the C2 witness. -/
def c2Payload : JObj :=
  [("candidate_programs",
    JValue.arr [JValue.obj [("name", JValue.str "Statistics"),
                            ("completion_pct", JValue.num 40)]]),
   ("interests", JValue.arr [JValue.str "machine learning"])]

/-- Witness for C2 (amended) at concrete iterable inputs. -/
theorem c2_enforce_schema_amended_witness :
    iterOk (pyDictGet c2Data "recommended_programs" (.arr [])) = true ∧
    iterOk (pyDictGet c2Payload "candidate_programs" (.arr [])) = true ∧
    iterOk (pyDictGet c2Payload "interests" (.arr [])) = true ∧
    (∃ (items : List JValue) (programs : List RecProgram)
      (career pros cons steps : List String),
      pyIterate (pyDictGet c2Data "recommended_programs" (.arr [])) = .ok items ∧
      _enforce_schema c2Data c2Payload =
        .ok [("recommended_programs", .arr (programs.map progToJValue)),
             ("career_paths", strListJValue career),
             ("pros", strListJValue pros),
             ("cons", strListJValue cons),
             ("next_steps", strListJValue steps)] ∧
      (∀ out, _enforce_schema c2Data c2Payload = .ok out →
        out.map Prod.fst =
          ["recommended_programs", "career_paths", "pros", "cons", "next_steps"]) ∧
      (dataPrograms items ≠ [] → programs = dataPrograms items) ∧
      (dataPrograms items = [] →
        _fallback_programs_from_payload c2Payload = .ok programs) ∧
      (∀ p ∈ dataPrograms items,
        p.name ≠ "" ∧ 0 ≤ p.feasibility_score_0_100 ∧
          p.feasibility_score_0_100 ≤ 100) ∧
      (∀ (o : JObj) (p : RecProgram),
        pyFloat (pyDictGet o "feasibility_score_0_100" (.num 0)) = none →
        mkProgram (.obj o) = some p → p.feasibility_score_0_100 = 0) ∧
      ((ensure_list_of_strings (pyDictGet c2Data "career_paths" .null) ≠ [] →
          career = ensure_list_of_strings (pyDictGet c2Data "career_paths" .null)) ∧
       (ensure_list_of_strings (pyDictGet c2Data "career_paths" .null) = [] →
          _fallback_career_paths c2Payload programs = .ok career)) ∧
      ((ensure_list_of_strings (pyDictGet c2Data "pros" .null) ≠ [] →
          pros = ensure_list_of_strings (pyDictGet c2Data "pros" .null)) ∧
       (ensure_list_of_strings (pyDictGet c2Data "pros" .null) = [] →
          _fallback_pros c2Payload programs = .ok pros)) ∧
      ((ensure_list_of_strings (pyDictGet c2Data "cons" .null) ≠ [] →
          cons = ensure_list_of_strings (pyDictGet c2Data "cons" .null)) ∧
       (ensure_list_of_strings (pyDictGet c2Data "cons" .null) = [] →
          _fallback_cons c2Payload programs = .ok cons)) ∧
      ((ensure_list_of_strings (pyDictGet c2Data "next_steps" .null) ≠ [] →
          steps = ensure_list_of_strings (pyDictGet c2Data "next_steps" .null)) ∧
       (ensure_list_of_strings (pyDictGet c2Data "next_steps" .null) = [] →
          _fallback_next_steps c2Payload programs = .ok steps))) :=
  ⟨rfl, rfl, rfl, c2_enforce_schema_amended c2Data c2Payload rfl rfl rfl⟩

/-! ## Claim C9 -/

/-- Correspondence between the parsing scanner of `extract_json` and the
pure balanced-block scan: equal brace/string bookkeeping, candidates are
exactly the blocks that parse as dicts, and the recorded block start
agrees whenever the depth is non-zero (at depth zero the start is dead:
it is overwritten before its next use). -/
def ScanRel (a : ScanState) (b : BlockState) : Prop :=
  a.depth = b.depth ∧ a.in_string = b.inStr ∧ a.escape = b.esc ∧
  a.candidates = b.blocks.filterMap parseBlockObj ∧
  (a.depth ≠ 0 → a.start_idx = b.start)

theorem scanStep_rel (cleaned : List Char) (p : Nat × Char) :
    ∀ (a : ScanState) (b : BlockState), ScanRel a b →
      ScanRel (scanStep cleaned a p) (blockStep cleaned b p)
  | ⟨as_, ad, ai, ae, ac⟩, ⟨bs, bd, bi, be, bb⟩, h => by
    obtain ⟨hd, hs, he, hc, hst⟩ := h
    simp only at hd hs he hc hst
    subst hd; subst hs; subst he; subst hc
    unfold scanStep blockStep
    simp only
    by_cases h1 : ai = true
    · rw [if_pos h1, if_pos h1]
      by_cases h2 : ae = true
      · rw [if_pos h2, if_pos h2]
        exact ⟨rfl, rfl, rfl, rfl, fun hne => hst hne⟩
      · rw [if_neg h2, if_neg h2]
        by_cases h3 : (p.2 == bslashC) = true
        · rw [if_pos h3, if_pos h3]
          exact ⟨rfl, rfl, rfl, rfl, fun hne => hst hne⟩
        · rw [if_neg h3, if_neg h3]
          by_cases h4 : (p.2 == quoteC) = true
          · rw [if_pos h4, if_pos h4]
            exact ⟨rfl, rfl, rfl, rfl, fun hne => hst hne⟩
          · rw [if_neg h4, if_neg h4]
            exact ⟨rfl, rfl, rfl, rfl, fun hne => hst hne⟩
    · rw [if_neg h1, if_neg h1]
      by_cases h4 : (p.2 == quoteC) = true
      · rw [if_pos h4, if_pos h4]
        exact ⟨rfl, rfl, rfl, rfl, fun hne => hst hne⟩
      · rw [if_neg h4, if_neg h4]
        by_cases h5 : (p.2 == lbraceC) = true
        · rw [if_pos h5, if_pos h5]
          refine ⟨rfl, rfl, rfl, rfl, fun _ => ?_⟩
          by_cases hz : (ad == 0) = true
          · rw [if_pos hz, if_pos hz]
          · rw [if_neg hz, if_neg hz]
            exact hst (fun h0 => hz (by rw [h0]; rfl))
        · rw [if_neg h5, if_neg h5]
          by_cases h6 : (p.2 == rbraceC) = true
          · rw [if_pos h6, if_pos h6]
            by_cases h7 : 0 < ad
            · rw [if_pos h7, if_pos h7]
              have hnz : ad ≠ 0 := Nat.pos_iff_ne_zero.mp h7
              have hse : as_ = bs := hst hnz
              subst hse
              by_cases h8 : (ad - 1 == 0) = true
              · rw [if_pos h8, if_pos h8]
                cases as_ with
                | none =>
                  dsimp only
                  exact ⟨rfl, rfl, rfl, rfl, fun _ => rfl⟩
                | some s =>
                  dsimp only
                  cases hpb : parseBlockObj ((cleaned.drop s).take (p.1 + 1 - s)) with
                  | some o =>
                    refine ⟨rfl, rfl, rfl, ?_, ?_⟩
                    · dsimp only
                      simp only [List.filterMap_append, List.filterMap_cons,
                        List.filterMap_nil, hpb]
                    · intro hne
                      exact absurd (Nat.beq_eq_true_eq (ad - 1) 0 ▸ h8) hne
                  | none =>
                    refine ⟨rfl, rfl, rfl, ?_, ?_⟩
                    · dsimp only
                      simp only [List.filterMap_append, List.filterMap_cons,
                        List.filterMap_nil, hpb, List.append_nil]
                    · intro hne
                      exact absurd (Nat.beq_eq_true_eq (ad - 1) 0 ▸ h8) hne
              · rw [if_neg h8, if_neg h8]
                refine ⟨rfl, rfl, rfl, rfl, fun _ => rfl⟩
            · rw [if_neg h7, if_neg h7]
              exact ⟨rfl, rfl, rfl, rfl, fun hne => hst hne⟩
          · rw [if_neg h6, if_neg h6]
            exact ⟨rfl, rfl, rfl, rfl, fun hne => hst hne⟩

theorem foldl_scan_rel (cleaned : List Char) :
    ∀ (l : List (Nat × Char)) (a : ScanState) (b : BlockState),
      ScanRel a b →
      ScanRel (l.foldl (scanStep cleaned) a) (l.foldl (blockStep cleaned) b)
  | [], _, _, h => h
  | p :: l, a, b, h =>
    foldl_scan_rel cleaned l _ _ (scanStep_rel cleaned p a b h)

theorem scanned_eq_blocks (cleaned : List Char) :
    (cleaned.enum.foldl (scanStep cleaned) ⟨none, 0, false, false, []⟩).candidates =
      (topLevelBlocks cleaned).filterMap parseBlockObj := by
  have h := foldl_scan_rel cleaned cleaned.enum ⟨none, 0, false, false, []⟩
    ⟨none, 0, false, false, []⟩ ⟨rfl, rfl, rfl, rfl, fun hne => absurd rfl hne⟩
  exact h.2.2.2.1

/-- C9: `extract_json` never raises (it is a total function to `Option`),
returns `none` exactly when, after cleaning, neither the whole cleaned
text nor any balanced top-level brace block (brace matching skipping JSON
strings) parses as a JSON object, and otherwise returns the first
candidate containing both `recommended_programs` and `next_steps`, else
the first candidate. -/
theorem c9_extract_json_characterization (text : String) :
    extract_json text =
      ((specCandidates text).find? hasRequiredKeys).orElse
        (fun _ => (specCandidates text).head?) ∧
    (extract_json text = none ↔ specCandidates text = []) := by
  have hmain : extract_json text =
      ((specCandidates text).find? hasRequiredKeys).orElse
        (fun _ => (specCandidates text).head?) := by
    unfold extract_json specCandidates
    dsimp only
    rw [scanned_eq_blocks]
    cases hc : (match json_loads ⟨(_clean_json_like_text text).toList⟩ with
        | some (.obj o) => [o]
        | _ => []) ++
        (topLevelBlocks (_clean_json_like_text text).toList).filterMap parseBlockObj with
    | nil => rfl
    | cons c cs =>
      cases hf : (c :: cs).find? hasRequiredKeys with
      | some c' => rfl
      | none => rfl
  refine ⟨hmain, ?_⟩
  rw [hmain]
  cases hc : specCandidates text with
  | nil => simp
  | cons c cs =>
    constructor
    · intro h
      cases hf : (c :: cs).find? hasRequiredKeys with
      | some c' => rw [hf] at h; cases h
      | none => rw [hf] at h; cases h
    · intro h; cases h
